import Mathlib

/-!
Verification of the Zero compiler (LetsZero/zero-compiler) against its
natural-language specification.  The C++ sources are shallowly embedded:
each Lean definition mirrors one function or data type of the repository
(file and symbol named in its doc comment).  Machine integers are modelled
as `Int`/`Nat`; C++ `double` is modelled by Lean's IEEE-754 `Float`;
`std::unordered_map` by association lists or functions to `Option`;
`unique_ptr` children that the embedded code null-checks by `Option`.
-/

namespace Zero

/-! ## Source management (src/src/source/source.cpp, src/include/source/source.hpp) -/

/-- Sentinel for an invalid source id (`INVALID_SOURCE_ID = UINT32_MAX`). -/
def INVALID_SOURCE_ID : Nat := 4294967295

/-- Embeds `zero::source::Span`: a byte range `[start, end)` in one source. -/
structure Span where
  source_id : Nat := INVALID_SOURCE_ID
  start_offset : Nat := 0
  end_offset : Nat := 0
deriving DecidableEq, Repr

/-- Embeds `Span::point`: a one-byte span at `offset`. -/
def Span.point (id : Nat) (offset : Nat) : Span :=
  { source_id := id, start_offset := offset, end_offset := offset + 1 }

/-- Embeds `Span::range`. -/
def Span.range (id : Nat) (start : Nat) (stop : Nat) : Span :=
  { source_id := id, start_offset := start, end_offset := stop }

/-- Embeds `Span::merge`: convex union, invalid when the sources differ. -/
def Span.merge (a b : Span) : Span :=
  if a.source_id ≠ b.source_id then {}
  else { source_id := a.source_id,
         start_offset := min a.start_offset b.start_offset,
         end_offset := max a.end_offset b.end_offset }

/-- Helper for `SourceManager::compute_line_offsets`: offsets of the line
    starts strictly after position `i`, scanning the remaining characters. -/
def line_starts_from (i : Nat) : List Char → List Nat
  | [] => []
  | c :: rest =>
    if c = '\n' then (i + 1) :: line_starts_from (i + 1) rest
    else line_starts_from (i + 1) rest

/-- Embeds `SourceManager::compute_line_offsets`: the first line starts at
    offset 0, and each newline at index `i` starts a line at `i + 1`. -/
def compute_line_offsets (content : List Char) : List Nat :=
  0 :: line_starts_from 0 content

/-- Embeds `SourceFile::offset_to_line_col`.  `line_offsets` is the
    precomputed table; `std::upper_bound` is the index of the first table
    entry greater than `offset` (`List.findIdx`), and the line containing
    `offset` is the entry before it.  Both line and column are 1-indexed;
    out-of-range offsets yield `(0, 0)`. -/
def offset_to_line_col (content : List Char) (line_offsets : List Nat)
    (offset : Nat) : Nat × Nat :=
  if line_offsets.isEmpty ∨ offset > content.length then (0, 0)
  else
    let ub := line_offsets.findIdx (fun x => decide (offset < x))
    if ub = 0 then (1, offset + 1)
    else (ub, offset - line_offsets.getD (ub - 1) 0 + 1)

theorem line_starts_from_pos (i : Nat) (cs : List Char) :
    ∀ x ∈ line_starts_from i cs, i < x := by
  induction cs generalizing i with
  | nil => intro x hx; simp [line_starts_from] at hx
  | cons c rest ih =>
    intro x hx
    simp only [line_starts_from] at hx
    by_cases hc : c = '\n'
    · simp [hc] at hx
      rcases hx with h | h
      · omega
      · have := ih (i + 1) x h; omega
    · simp [hc] at hx
      have := ih (i + 1) x hx; omega

/-- The precomputed line-offset table always starts with offset 0. -/
theorem compute_line_offsets_head (content : List Char) :
    (compute_line_offsets content).getD 0 0 = 0 := by
  simp [compute_line_offsets]

/-- C9.  *Line mapping round-trip* (spec §8): for every loaded file and
    every byte offset inside its content that is not a newline character,
    `offset_to_line_col` over the table computed by `compute_line_offsets`
    returns a 1-indexed `(line, col)` such that the recorded start offset of
    that line plus `col − 1` is the original offset. -/
theorem spec_c9_line_mapping_round_trip (content : List Char) (offset : Nat)
    (hin : offset < content.length)
    (hnl : content.getD offset ' ' ≠ '\n') :
    1 ≤ (offset_to_line_col content (compute_line_offsets content) offset).1 ∧
    (compute_line_offsets content).getD
        ((offset_to_line_col content (compute_line_offsets content) offset).1 - 1) 0 +
      ((offset_to_line_col content (compute_line_offsets content) offset).2 - 1) =
      offset := by
  have key : ∀ lo : List Nat, lo = compute_line_offsets content →
      1 ≤ (offset_to_line_col content lo offset).1 ∧
      lo.getD ((offset_to_line_col content lo offset).1 - 1) 0 +
        ((offset_to_line_col content lo offset).2 - 1) = offset := by
    intro lo hlo
    have hne : lo.isEmpty = false := by
      rw [hlo]; simp [compute_line_offsets]
    have hle : ¬ offset > content.length := by omega
    have hub0 : lo.findIdx (fun x => decide (offset < x)) ≠ 0 := by
      rw [hlo]
      show (0 :: line_starts_from 0 content).findIdx _ ≠ 0
      rw [List.findIdx_cons]
      simp
    have hub_le : lo.findIdx (fun x => decide (offset < x)) ≤ lo.length :=
      List.findIdx_le_length _
    have hub_pos : 1 ≤ lo.findIdx (fun x => decide (offset < x)) :=
      Nat.one_le_iff_ne_zero.mpr hub0
    have hlt : lo.findIdx (fun x => decide (offset < x)) - 1 < lo.length := by
      omega
    have hpred : (fun x => decide (offset < x)) (lo.get ⟨_, hlt⟩) = false := by
      have h : lo.findIdx (fun x => decide (offset < x)) - 1 <
          lo.findIdx (fun x => decide (offset < x)) := by omega
      simpa using List.not_of_lt_findIdx h
    have hstart_le : lo.get ⟨_, hlt⟩ ≤ offset := by
      simp only [decide_eq_false_iff_not, not_lt] at hpred
      omega
    have hgetD : lo.getD (lo.findIdx (fun x => decide (offset < x)) - 1) 0 =
        lo.get ⟨_, hlt⟩ := by
      simp [List.getD_eq_getElem?_getD, List.getElem?_eq_getElem hlt]
    have hres : offset_to_line_col content lo offset =
        (lo.findIdx (fun x => decide (offset < x)),
         offset - lo.getD (lo.findIdx (fun x => decide (offset < x)) - 1) 0 + 1) := by
      rw [offset_to_line_col]
      simp [hne, hle, hub0]
    rw [hres]
    refine ⟨hub_pos, ?_⟩
    simp only [Nat.add_sub_cancel]
    rw [hgetD]
    omega
  exact key _ rfl

/-- Concrete round-trip instance: in the two-line file `"ab\ncd"`, offset 3
    (the character `c`, line 2 column 1) round-trips. -/
theorem spec_c9_line_mapping_round_trip_witness :
    1 ≤ (offset_to_line_col "ab\ncd".toList
          (compute_line_offsets "ab\ncd".toList) 3).1 ∧
    (compute_line_offsets "ab\ncd".toList).getD
        ((offset_to_line_col "ab\ncd".toList
            (compute_line_offsets "ab\ncd".toList) 3).1 - 1) 0 +
      ((offset_to_line_col "ab\ncd".toList
          (compute_line_offsets "ab\ncd".toList) 3).2 - 1) = 3 :=
  spec_c9_line_mapping_round_trip "ab\ncd".toList 3 (by decide) (by decide)

/-! ## Lexer (src/src/lexer/lexer.cpp, token types from token.hpp)

The C++ scanning loops (`while (...) advance();`) are written with an
explicit fuel argument that callers instantiate with `content.length`;
since every loop iteration advances `current_` by at least one and every
loop stops at end of input, that fuel is never exhausted and the embedded
functions compute exactly what the C++ loops compute. -/

/-- Embeds `zero::lexer::TokenType`. -/
inductive TokenType where
  | IDENT | INT_LIT | FLOAT_LIT | STRING_LIT
  | FN | LET | RETURN | IF | ELSE | WHILE | USE
  | PLUS | MINUS | STAR | SLASH
  | EQ | EQ_EQ | BANG | BANG_EQ | LT | GT | LT_EQ | GT_EQ
  | LPAREN | RPAREN | LBRACE | RBRACE | LBRACKET | RBRACKET
  | COMMA | COLON | SEMICOLON | ARROW
  | NEWLINE | EOF_TOKEN | ERROR
deriving DecidableEq, Repr

/-- Embeds `zero::lexer::Token` (type, span, text view). -/
structure Token where
  type : TokenType := TokenType.EOF_TOKEN
  span : Span := {}
  text : String := ""
deriving DecidableEq, Repr

/-- Embeds `Lexer::is_alpha`. -/
def is_alpha (c : Char) : Bool :=
  (decide ('a' ≤ c) && decide (c ≤ 'z')) ||
  (decide ('A' ≤ c) && decide (c ≤ 'Z')) ||
  decide (c = '_')

/-- Embeds `Lexer::is_digit`. -/
def is_digit (c : Char) : Bool :=
  decide ('0' ≤ c) && decide (c ≤ '9')

/-- Embeds `Lexer::is_alnum`. -/
def is_alnum (c : Char) : Bool :=
  is_alpha c || is_digit c

/-- Embeds `Lexer::peek_char`: the character at `cur`, or `NUL` past the end. -/
def peek_char (content : List Char) (cur : Nat) : Char :=
  content.getD cur '\x00'

/-- Embeds the position effect of `Lexer::advance`: move one character
    forward unless already at the end. -/
def advance_pos (content : List Char) (cur : Nat) : Nat :=
  if cur < content.length then cur + 1 else cur

/-- Loop of `Lexer::skip_line_comment`: skip to (but not past) the next
    newline. -/
def skip_to_eol (content : List Char) : Nat → Nat → Nat
  | 0, cur => cur
  | fuel + 1, cur =>
    if cur < content.length ∧ peek_char content cur ≠ '\n' then
      skip_to_eol content fuel (cur + 1)
    else cur

/-- Embeds `Lexer::skip_line_comment`: skip the two slashes, then skip to
    end of line. -/
def skip_line_comment (content : List Char) (fuel cur : Nat) : Nat :=
  skip_to_eol content fuel (advance_pos content (advance_pos content cur))

/-- Embeds `Lexer::skip_whitespace`: spaces, carriage returns, tabs and
    `//` line comments are consumed; anything else stops the loop. -/
def skip_whitespace (content : List Char) : Nat → Nat → Nat
  | 0, cur => cur
  | fuel + 1, cur =>
    if cur < content.length then
      let c := peek_char content cur
      if c = ' ' ∨ c = '\r' ∨ c = '\t' then
        skip_whitespace content fuel (cur + 1)
      else if c = '/' then
        if peek_char content (cur + 1) = '/' then
          skip_whitespace content fuel (skip_line_comment content fuel cur)
        else cur
      else cur
    else cur

/-- Embeds `Lexer::make_token`: token at `[start_, current_)` whose text is
    the corresponding view into the source. -/
def make_token (content : List Char) (sid : Nat) (start_ cur : Nat)
    (ty : TokenType) : Token :=
  { type := ty,
    span := Span.range sid start_ cur,
    text := String.mk ((content.drop start_).take (cur - start_)) }

/-- Embeds `Lexer::error_token`: error type, one-character span at
    `current_`, message as the text. -/
def error_token (sid : Nat) (cur : Nat) (message : String) : Token :=
  { type := TokenType.ERROR, span := Span.point sid cur, text := message }

/-- Embeds `Lexer::check_keyword`: the token is the keyword exactly when its
    length is `start + length` and the bytes after the first `start` match
    `rest`. -/
def check_keyword (content : List Char) (start_ cur : Nat) (s l : Nat)
    (rest : List Char) (ty : TokenType) : TokenType :=
  if cur - start_ = s + l ∧ (content.drop (start_ + s)).take l = rest then ty
  else TokenType.IDENT

/-- Embeds `Lexer::identifier_type`: keyword recognition keyed on the first
    character.  Note the C++ switch has cases for `e f i l r w` only. -/
def identifier_type (content : List Char) (start_ cur : Nat) : TokenType :=
  match peek_char content start_ with
  | 'e' => check_keyword content start_ cur 1 3 "lse".toList TokenType.ELSE
  | 'f' =>
    if cur - start_ > 1 then
      if peek_char content (start_ + 1) = 'n' then
        if cur - start_ = 2 then TokenType.FN else TokenType.IDENT
      else TokenType.IDENT
    else TokenType.IDENT
  | 'i' => check_keyword content start_ cur 1 1 "f".toList TokenType.IF
  | 'l' => check_keyword content start_ cur 1 2 "et".toList TokenType.LET
  | 'r' => check_keyword content start_ cur 1 5 "eturn".toList TokenType.RETURN
  | 'w' => check_keyword content start_ cur 1 4 "hile".toList TokenType.WHILE
  | _ => TokenType.IDENT

/-- Loop of `Lexer::scan_identifier`: consume alphanumeric characters. -/
def ident_end (content : List Char) : Nat → Nat → Nat
  | 0, cur => cur
  | fuel + 1, cur =>
    if is_alnum (peek_char content cur) ∧ cur < content.length then
      ident_end content fuel (cur + 1)
    else cur

/-- Embeds `Lexer::scan_identifier`. -/
def scan_identifier (content : List Char) (sid : Nat) (fuel start_ cur : Nat) :
    Token × Nat :=
  let e := ident_end content fuel cur
  (make_token content sid start_ e (identifier_type content start_ e), e)

/-- Digit-consuming loop of `Lexer::scan_number`. -/
def digits_end (content : List Char) : Nat → Nat → Nat
  | 0, cur => cur
  | fuel + 1, cur =>
    if is_digit (peek_char content cur) ∧ cur < content.length then
      digits_end content fuel (cur + 1)
    else cur

/-- Embeds `Lexer::scan_number`: integer part, then a fractional part only
    when a dot is directly followed by a digit. -/
def scan_number (content : List Char) (sid : Nat) (fuel start_ cur : Nat) :
    Token × Nat :=
  let c1 := digits_end content fuel cur
  if peek_char content c1 = '.' ∧ is_digit (peek_char content (c1 + 1)) then
    let c2 := digits_end content fuel (c1 + 1)
    (make_token content sid start_ c2 TokenType.FLOAT_LIT, c2)
  else
    (make_token content sid start_ c1 TokenType.INT_LIT, c1)

/-- Embeds the position effect of `Lexer::match`: consume `expected` when it
    is the current character. -/
def match_char (content : List Char) (cur : Nat) (expected : Char) :
    Bool × Nat :=
  if cur < content.length ∧ peek_char content cur = expected then (true, cur + 1)
  else (false, cur)

/-- Two-way token helper for `-> = == ! != < <= > >=` in `Lexer::scan_token`. -/
def two_char_token (content : List Char) (sid : Nat) (start_ cur : Nat)
    (expected : Char) (two one : TokenType) : Token × Nat :=
  let m := match_char content cur expected
  (make_token content sid start_ m.2 (if m.1 then two else one), m.2)

/-- Embeds `Lexer::scan_token`: skip whitespace, then dispatch on the first
    character.  The switch covers identifiers, numbers, delimiters, newline
    and the operator pairs; every other character (including `"`) falls
    through to `error_token("Unexpected character")`. -/
def scan_token (content : List Char) (sid : Nat) (cur0 : Nat) : Token × Nat :=
  let fuel := content.length
  let cur := skip_whitespace content fuel cur0
  let start_ := cur
  if cur ≥ content.length then
    (make_token content sid start_ cur TokenType.EOF_TOKEN, cur)
  else
    let c := peek_char content cur
    let cur1 := cur + 1
    if is_alpha c then scan_identifier content sid fuel start_ cur1
    else if is_digit c then scan_number content sid fuel start_ cur1
    else
      match c with
      | '(' => (make_token content sid start_ cur1 TokenType.LPAREN, cur1)
      | ')' => (make_token content sid start_ cur1 TokenType.RPAREN, cur1)
      | '{' => (make_token content sid start_ cur1 TokenType.LBRACE, cur1)
      | '}' => (make_token content sid start_ cur1 TokenType.RBRACE, cur1)
      | '[' => (make_token content sid start_ cur1 TokenType.LBRACKET, cur1)
      | ']' => (make_token content sid start_ cur1 TokenType.RBRACKET, cur1)
      | ',' => (make_token content sid start_ cur1 TokenType.COMMA, cur1)
      | ':' => (make_token content sid start_ cur1 TokenType.COLON, cur1)
      | ';' => (make_token content sid start_ cur1 TokenType.SEMICOLON, cur1)
      | '\n' => (make_token content sid start_ cur1 TokenType.NEWLINE, cur1)
      | '+' => (make_token content sid start_ cur1 TokenType.PLUS, cur1)
      | '*' => (make_token content sid start_ cur1 TokenType.STAR, cur1)
      | '/' => (make_token content sid start_ cur1 TokenType.SLASH, cur1)
      | '-' => two_char_token content sid start_ cur1 '>'
                 TokenType.ARROW TokenType.MINUS
      | '=' => two_char_token content sid start_ cur1 '='
                 TokenType.EQ_EQ TokenType.EQ
      | '!' => two_char_token content sid start_ cur1 '='
                 TokenType.BANG_EQ TokenType.BANG
      | '<' => two_char_token content sid start_ cur1 '='
                 TokenType.LT_EQ TokenType.LT
      | '>' => two_char_token content sid start_ cur1 '='
                 TokenType.GT_EQ TokenType.GT
      | _ => (error_token sid cur1 "Unexpected character", cur1)

/-- Tokenize from position 0, collecting up to `fuel` tokens (stops after
    the first EOF or error-free end). -/
def tokenize (content : List Char) (sid : Nat) : Nat → Nat → List Token
  | 0, _ => []
  | fuel + 1, cur =>
    let tc := scan_token content sid cur
    if tc.1.type = TokenType.EOF_TOKEN then [tc.1]
    else tc.1 :: tokenize content sid fuel tc.2

/-- C2 (code bug).  The spec and the repository's own headers and status
    report promise a `STRING_LIT` token for `"..."` sources (token.hpp
    defines `STRING_LIT`, lexer.hpp declares `scan_string`, the parser
    consumes string-literal tokens), but `Lexer::scan_token` has no case
    for `"`: scanning a well-formed string literal yields an error token
    with the text `Unexpected character` instead of a string-literal token. -/
theorem spec_c2_string_literal_lexes_to_error :
    (scan_token "\"hi\"".toList 0 0).1.type = TokenType.ERROR ∧
    (scan_token "\"hi\"".toList 0 0).1.text = "Unexpected character" ∧
    (scan_token "\"hi\"".toList 0 0).1.type ≠ TokenType.STRING_LIT := by
  refine ⟨rfl, rfl, ?_⟩
  decide

/-- C3 (code bug).  `Parser::parse` skips `use IDENT` directives only when
    the current token has type `USE`, but `Lexer::identifier_type` has no
    case for `u`, so the word `use` is lexed as a plain identifier and the
    skipping branch is unreachable: the token stream of `use foo` contains
    no `USE` token at all. -/
theorem spec_c3_use_keyword_lexes_as_identifier :
    (tokenize "use foo".toList 0 8 0).map Token.type =
      [TokenType.IDENT, TokenType.IDENT, TokenType.EOF_TOKEN] ∧
    (tokenize "use foo".toList 0 8 0).map Token.text = ["use", "foo", ""] ∧
    TokenType.USE ∉ (tokenize "use foo".toList 0 8 0).map Token.type := by
  refine ⟨rfl, rfl, ?_⟩
  decide

/-! ## Type system (src/unnamed/part_010, zero::types) -/

/-- Embeds `zero::types::TypeKind`. -/
inductive TypeKind where
  | INT | FLOAT | VOID | TENSOR | FUNCTION | UNKNOWN
deriving DecidableEq, Repr

/-- Embeds `zero::types::Type` (named `Ty` because `Type` is reserved). -/
structure Ty where
  kind : TypeKind := TypeKind.UNKNOWN
deriving DecidableEq, Repr

/-- Embeds `Type::make_int`. -/
def Ty.make_int : Ty := { kind := TypeKind.INT }

/-- Embeds `Type::make_float`. -/
def Ty.make_float : Ty := { kind := TypeKind.FLOAT }

/-- Embeds `Type::make_void`. -/
def Ty.make_void : Ty := { kind := TypeKind.VOID }

/-- Embeds `Type::make_tensor`. -/
def Ty.make_tensor : Ty := { kind := TypeKind.TENSOR }

/-- Embeds `Type::make_unknown`. -/
def Ty.make_unknown : Ty := { kind := TypeKind.UNKNOWN }

/-- Embeds `Type::is_int`. -/
def Ty.is_int (t : Ty) : Bool := t.kind = TypeKind.INT

/-- Embeds `Type::is_float`. -/
def Ty.is_float (t : Ty) : Bool := t.kind = TypeKind.FLOAT

/-- Embeds `Type::is_void`. -/
def Ty.is_void (t : Ty) : Bool := t.kind = TypeKind.VOID

/-- Embeds `Type::is_numeric`. -/
def Ty.is_numeric (t : Ty) : Bool := t.is_int || t.is_float

/-- Embeds `Type::is_unknown`. -/
def Ty.is_unknown (t : Ty) : Bool := t.kind = TypeKind.UNKNOWN

/-- Embeds `zero::types::binary_result_type`. -/
def binary_result_type (left right : Ty) : Ty :=
  if left.is_unknown then right
  else if right.is_unknown then left
  else if left = right then left
  else if left.is_numeric && right.is_numeric then
    if left.is_float || right.is_float then Ty.make_float else Ty.make_int
  else Ty.make_unknown

/-! ## IR data model (src/unnamed/part_005 ir.hpp plus the `CONST_STR` /
    `imm_str` members used by builder.hpp and interpreter.cpp) -/

/-- Embeds `zero::ir::Value`: an SSA value id with its type; id 0 is the
    reserved invalid value. -/
structure Value where
  id : Nat := 0
  type : Ty := {}
deriving DecidableEq, Repr

instance : Inhabited Value := ⟨{}⟩

/-- Embeds `Value::valid`. -/
def Value.valid (v : Value) : Bool := v.id ≠ 0

/-- Embeds `zero::ir::OpCode`. -/
inductive OpCode where
  | NOP
  | CONST_INT | CONST_FLOAT | CONST_STR
  | ADD | SUB | MUL | DIV | NEG
  | CMP_EQ | CMP_NE | CMP_LT | CMP_LE | CMP_GT | CMP_GE
  | CALL | RET | BR | COND_BR
  | ALLOCA | LOAD | STORE
  | TENSOR_ALLOC | TENSOR_ADD | TENSOR_SUB | TENSOR_MUL
  | TENSOR_MATMUL | TENSOR_RELU
deriving DecidableEq, Repr

/-- Embeds `zero::ir::Instruction` with its C++ member defaults. -/
structure Instruction where
  op : OpCode := OpCode.NOP
  result : Value := {}
  operands : List Value := []
  imm_int : Int := 0
  imm_float : Float := 0.0
  imm_str : String := ""
  callee : String := ""
  target_block : Nat := 0
  else_block : Nat := 0

instance : Inhabited Instruction := ⟨{}⟩

/-- Embeds `zero::ir::BasicBlock`. -/
structure BasicBlock where
  id : Nat := 0
  label : String := ""
  instrs : List Instruction := []

instance : Inhabited BasicBlock := ⟨{}⟩

/-- Embeds `BasicBlock::add`. -/
def BasicBlock.add (bb : BasicBlock) (instr : Instruction) : BasicBlock :=
  { bb with instrs := bb.instrs ++ [instr] }

/-- Embeds `zero::ir::Function` (block 0 is the entry; ids are assigned from
    the per-function counters). -/
structure Function where
  name : String := ""
  param_types : List Ty := []
  return_type : Ty := {}
  blocks : List BasicBlock := []
  next_value_id : Nat := 1
  next_block_id : Nat := 0

instance : Inhabited Function := ⟨{}⟩

/-- Embeds `Function::new_value`: fresh SSA value from the counter. -/
def Function.new_value (fn : Function) (ty : Ty) : Value × Function :=
  ({ id := fn.next_value_id, type := ty },
   { fn with next_value_id := fn.next_value_id + 1 })

/-- Embeds `Function::new_block`: append a block with the next block id and
    the default label `bb<id>`; the returned handle is the block's id, which
    by construction equals its index in `blocks`. -/
def Function.new_block (fn : Function) (label : String) : Nat × Function :=
  let id := fn.next_block_id
  let bb : BasicBlock :=
    { id := id, label := if label = "" then "bb" ++ toString id else label }
  (id, { fn with blocks := fn.blocks ++ [bb], next_block_id := id + 1 })

/-- Embeds `Function::entry`: block 0, created with label `entry` when the
    function has no blocks yet. -/
def Function.entry (fn : Function) : Nat × Function :=
  if fn.blocks.isEmpty then fn.new_block "entry" else (0, fn)

/-- Embeds `zero::ir::Module`. -/
structure Module where
  functions : List Function := []

/-- Embeds `Module::get_function`: first function with the given name. -/
def Module.get_function (mod : Module) (name : String) : Option Function :=
  mod.functions.find? (fun fn => fn.name == name)

/-! ## Interpreter (src/unnamed/part_015 interpreter.cpp,
    src/include/backend/interpreter.hpp) -/

/-- Embeds `zero::backend::RuntimeValue`: the variant
    `monostate | int64_t | double | void* | std::string`.  The pointer
    payload is modelled as an address; the interpreter itself only ever
    stores the null pointer. -/
inductive RuntimeValue where
  | unit
  | int (v : Int)
  | float (v : Float)
  | ptr (v : Nat)
  | str (v : String)

instance : Inhabited RuntimeValue := ⟨RuntimeValue.unit⟩

/-- Embeds `RuntimeValue::is_void`. -/
def RuntimeValue.is_void : RuntimeValue → Bool
  | .unit => true
  | _ => false

/-- Embeds `RuntimeValue::is_int`. -/
def RuntimeValue.is_int : RuntimeValue → Bool
  | .int _ => true
  | _ => false

/-- Embeds `RuntimeValue::is_float`. -/
def RuntimeValue.is_float : RuntimeValue → Bool
  | .float _ => true
  | _ => false

/-- Models `static_cast<int64_t>(double)`: truncation toward zero (the C++
    cast is undefined for out-of-range values; no embedded claim evaluates
    this function on a float). -/
def float_to_int (f : Float) : Int :=
  if f < 0 then -(Int.ofNat (Float.toUInt64 (-f)).toNat)
  else Int.ofNat (Float.toUInt64 f).toNat

/-- Embeds `RuntimeValue::to_int`: ints pass through, floats truncate, every
    other tag yields 0. -/
def RuntimeValue.to_int : RuntimeValue → Int
  | .int v => v
  | .float f => float_to_int f
  | _ => 0

/-- Embeds `RuntimeValue::to_float`: floats pass through, ints widen, every
    other tag yields 0.0. -/
def RuntimeValue.to_float : RuntimeValue → Float
  | .float f => f
  | .int v => Float.ofInt v
  | _ => 0.0

/-- Embeds the interpreter's `values_` map (`unordered_map<uint32_t,
    RuntimeValue>`): SSA value id to runtime value. -/
def Values := Nat → Option RuntimeValue

/-- The cleared value table (`values_.clear()`). -/
def empty_values : Values := fun _ => none

/-- Embeds `Interpreter::get_value`: a stored value if present, otherwise
    the default-constructed (unit) runtime value. -/
def get_value (values : Values) (v : Value) : RuntimeValue :=
  match values v.id with
  | some rv => rv
  | none => RuntimeValue.unit

/-- Embeds `Interpreter::set_value`. -/
def set_value (values : Values) (v : Value) (rv : RuntimeValue) : Values :=
  fun id => if id = v.id then some rv else values id

/-- The interpreter's environment: the module being executed (`module_`) and
    the registry of external functions (`externals_`).  Externals are pure
    Lean functions, i.e. side-effect-free registrations. -/
structure Env where
  mod : Module
  externals : List (String × (List RuntimeValue → RuntimeValue))

/-- Side-effect-free lookup in the externals registry. -/
def Env.find_external (env : Env) (name : String) :
    Option (List RuntimeValue → RuntimeValue) :=
  env.externals.lookup name

mutual

/-- Embeds `Interpreter::call_function`.  A registered external with the
    function's name wins; otherwise a frame (block index 0, instruction
    index 0) is pushed and the block loop (`exec_frame`) runs.  The TODO in
    the source is visible here: `args` is never bound into the value table.
    `fuel` bounds the recursion depth and loop iterations; `none` means the
    fuel ran out (the C++ loops forever or overflows the stack instead). -/
def call_function : Nat → Env → Function → List RuntimeValue → Values →
    Option (RuntimeValue × Values)
  | 0, _, _, _, _ => none
  | fuel + 1, env, fn, args, values =>
    match env.find_external fn.name with
    | some ext => some (ext args, values)
    | none =>
      let _ := args
      exec_frame fuel env fn 0 0 RuntimeValue.unit values

/-- Embeds the block/instruction loop inside `Interpreter::call_function`
    (lines 59–121): `result` is the local `RuntimeValue result` that each
    executed instruction overwrites; `RET` returns it (or its operand);
    `BR`/`COND_BR` reset the position; running off a block falls through to
    the next block by index, and running off the last block returns. -/
def exec_frame : Nat → Env → Function → Nat → Nat → RuntimeValue → Values →
    Option (RuntimeValue × Values)
  | 0, _, _, _, _, _, _ => none
  | fuel + 1, env, fn, block_idx, instr_idx, result, values =>
    if block_idx < fn.blocks.length then
      let bb := fn.blocks.getD block_idx default
      if instr_idx < bb.instrs.length then
        let instr := bb.instrs.getD instr_idx default
        match instr.op with
        | OpCode.RET =>
          if instr.operands.isEmpty then some (result, values)
          else some (get_value values (instr.operands.getD 0 default), values)
        | OpCode.BR =>
          exec_frame fuel env fn instr.target_block 0 result values
        | OpCode.COND_BR =>
          let cond := get_value values (instr.operands.getD 0 default)
          if cond.to_int ≠ 0 then
            exec_frame fuel env fn instr.target_block 0 result values
          else
            exec_frame fuel env fn instr.else_block 0 result values
        | _ =>
          match exec_instruction fuel env instr values with
          | none => none
          | some (r, values') =>
            exec_frame fuel env fn block_idx (instr_idx + 1) r values'
      else
        if block_idx < fn.blocks.length - 1 then
          exec_frame fuel env fn (block_idx + 1) 0 result values
        else some (result, values)
    else some (result, values)

/-- Embeds `Interpreter::exec_instruction`: compute the local `result`
    (default-constructed unit) per opcode, then store it into the value
    table when the instruction has a valid result value. -/
def exec_instruction : Nat → Env → Instruction → Values →
    Option (RuntimeValue × Values)
  | 0, _, _, _ => none
  | fuel + 1, env, instr, values =>
    let step : Option (RuntimeValue × Values) :=
      match instr.op with
      | OpCode.NOP => some (RuntimeValue.unit, values)
      | OpCode.CONST_INT => some (RuntimeValue.int instr.imm_int, values)
      | OpCode.CONST_FLOAT => some (RuntimeValue.float instr.imm_float, values)
      | OpCode.CONST_STR => some (RuntimeValue.str instr.imm_str, values)
      | OpCode.ADD =>
        let lhs := get_value values (instr.operands.getD 0 default)
        let rhs := get_value values (instr.operands.getD 1 default)
        if lhs.is_float || rhs.is_float then
          some (RuntimeValue.float (lhs.to_float + rhs.to_float), values)
        else some (RuntimeValue.int (lhs.to_int + rhs.to_int), values)
      | OpCode.SUB =>
        let lhs := get_value values (instr.operands.getD 0 default)
        let rhs := get_value values (instr.operands.getD 1 default)
        if lhs.is_float || rhs.is_float then
          some (RuntimeValue.float (lhs.to_float - rhs.to_float), values)
        else some (RuntimeValue.int (lhs.to_int - rhs.to_int), values)
      | OpCode.MUL =>
        let lhs := get_value values (instr.operands.getD 0 default)
        let rhs := get_value values (instr.operands.getD 1 default)
        if lhs.is_float || rhs.is_float then
          some (RuntimeValue.float (lhs.to_float * rhs.to_float), values)
        else some (RuntimeValue.int (lhs.to_int * rhs.to_int), values)
      | OpCode.DIV =>
        let lhs := get_value values (instr.operands.getD 0 default)
        let rhs := get_value values (instr.operands.getD 1 default)
        if lhs.is_float || rhs.is_float then
          some (RuntimeValue.float (lhs.to_float / rhs.to_float), values)
        else
          let divisor := rhs.to_int
          some (RuntimeValue.int
            (if divisor ≠ 0 then Int.tdiv lhs.to_int divisor else 0), values)
      | OpCode.NEG =>
        let operand := get_value values (instr.operands.getD 0 default)
        match operand with
        | RuntimeValue.float f => some (RuntimeValue.float (-f), values)
        | _ => some (RuntimeValue.int (-(operand.to_int)), values)
      | OpCode.CMP_EQ =>
        let lhs := get_value values (instr.operands.getD 0 default)
        let rhs := get_value values (instr.operands.getD 1 default)
        some (RuntimeValue.int (if lhs.to_int = rhs.to_int then 1 else 0), values)
      | OpCode.CMP_NE =>
        let lhs := get_value values (instr.operands.getD 0 default)
        let rhs := get_value values (instr.operands.getD 1 default)
        some (RuntimeValue.int (if lhs.to_int ≠ rhs.to_int then 1 else 0), values)
      | OpCode.CMP_LT =>
        let lhs := get_value values (instr.operands.getD 0 default)
        let rhs := get_value values (instr.operands.getD 1 default)
        some (RuntimeValue.int (if lhs.to_int < rhs.to_int then 1 else 0), values)
      | OpCode.CMP_LE =>
        let lhs := get_value values (instr.operands.getD 0 default)
        let rhs := get_value values (instr.operands.getD 1 default)
        some (RuntimeValue.int (if lhs.to_int ≤ rhs.to_int then 1 else 0), values)
      | OpCode.CMP_GT =>
        let lhs := get_value values (instr.operands.getD 0 default)
        let rhs := get_value values (instr.operands.getD 1 default)
        some (RuntimeValue.int (if lhs.to_int > rhs.to_int then 1 else 0), values)
      | OpCode.CMP_GE =>
        let lhs := get_value values (instr.operands.getD 0 default)
        let rhs := get_value values (instr.operands.getD 1 default)
        some (RuntimeValue.int (if lhs.to_int ≥ rhs.to_int then 1 else 0), values)
      | OpCode.CALL =>
        let args := instr.operands.map (get_value values)
        match env.find_external instr.callee with
        | some ext => some (ext args, values)
        | none =>
          match env.mod.get_function instr.callee with
          | some callee => call_function fuel env callee args values
          | none => some (RuntimeValue.unit, values)
      | OpCode.ALLOCA => some (RuntimeValue.int 0, values)
      | OpCode.LOAD =>
        some (get_value values (instr.operands.getD 0 default), values)
      | OpCode.STORE => some (RuntimeValue.unit, values)
      | OpCode.TENSOR_ALLOC => some (RuntimeValue.ptr 0, values)
      | OpCode.TENSOR_ADD => some (RuntimeValue.ptr 0, values)
      | OpCode.TENSOR_SUB => some (RuntimeValue.ptr 0, values)
      | OpCode.TENSOR_MUL => some (RuntimeValue.ptr 0, values)
      | OpCode.TENSOR_MATMUL => some (RuntimeValue.ptr 0, values)
      | OpCode.TENSOR_RELU => some (RuntimeValue.ptr 0, values)
      | OpCode.BR => some (RuntimeValue.unit, values)
      | OpCode.COND_BR => some (RuntimeValue.unit, values)
      | OpCode.RET => some (RuntimeValue.unit, values)
    match step with
    | none => none
    | some (result, values') =>
      if instr.result.valid then
        some (result, set_value values' instr.result result)
      else some (result, values')

end

/-- Embeds `Interpreter::execute`: the value table and call stack are
    cleared (`values_.clear(); call_stack_.clear()` — the prior table is the
    `values_` argument and is discarded), the entry function is looked up
    (a missing entry throws), and the entry function is called with no
    arguments. -/
def execute (fuel : Nat)
    (externals : List (String × (List RuntimeValue → RuntimeValue)))
    (values_ : Values) (mod : Module) (entry : String) :
    Option (Except String (RuntimeValue × Values)) :=
  let _ := values_
  let values := empty_values
  match mod.get_function entry with
  | none => some (Except.error ("Entry function not found: " ++ entry))
  | some entry_fn =>
    match call_function fuel { mod := mod, externals := externals } entry_fn [] values with
    | none => none
    | some (result, values') => some (Except.ok (result, values'))

/-- The storing step at the end of `Interpreter::exec_instruction`:
    `if (instr.result.valid()) set_value(instr.result, result);`. -/
def store_result (instr : Instruction) (result : RuntimeValue)
    (values : Values) : Values :=
  if instr.result.valid then set_value values instr.result result else values

/-! ### Example IR fixtures used by counterexamples and witnesses -/

/-- A function whose body is `%1 = const.i64 42; ret` — a bare `ret` after a
    non-terminator instruction. -/
def cex_ret_fn : Function :=
  { name := "main",
    blocks := [
      { id := 0, label := "entry", instrs := [
          { op := OpCode.CONST_INT,
            result := { id := 1, type := Ty.make_int }, imm_int := 42 },
          { op := OpCode.RET } ] } ],
    next_value_id := 2, next_block_id := 1 }

/-- Environment with only `cex_ret_fn` and no externals. -/
def cex_env0 : Env := { mod := { functions := [cex_ret_fn] }, externals := [] }

/-- C1 counterexample.  Executing `cex_ret_fn` reaches the bare `ret` after
    `const.i64 42` was executed; the call returns `int 42`, not the unit
    value — refuting "the call returns the unit (void) runtime value
    regardless of which non-terminator instructions were executed". -/
theorem spec_c1_bare_ret_not_unit_counterexample :
    (call_function 10 cex_env0 cex_ret_fn [] empty_values).map (fun p => p.1) =
      some (RuntimeValue.int 42) ∧
    RuntimeValue.int 42 ≠ RuntimeValue.unit := by
  refine ⟨rfl, ?_⟩
  intro h
  exact RuntimeValue.noConfusion h

/-- C1 (amended).  When control reaches a bare `ret` (no operands), the
    frame is popped and the call returns the interpreter's running `result`
    value — the result of the most recently executed non-terminator
    instruction of the call, which is the unit value only when no such
    instruction has executed — and the value table is left unchanged. -/
theorem spec_c1_bare_ret_returns_running_result
    (fuel : Nat) (env : Env) (fn : Function) (b i : Nat)
    (result : RuntimeValue) (values : Values)
    (hb : b < fn.blocks.length)
    (hi : i < (fn.blocks.getD b default).instrs.length)
    (hop : ((fn.blocks.getD b default).instrs.getD i default).op = OpCode.RET)
    (hbare : ((fn.blocks.getD b default).instrs.getD i default).operands = []) :
    exec_frame (fuel + 1) env fn b i result values = some (result, values) := by
  rw [exec_frame]
  simp only [hb, if_true, hi, hop, hbare]
  simp

/-- Concrete instance of the amended C1 statement: the bare `ret` of
    `cex_ret_fn` (block 0, instruction 1) returns the running result. -/
theorem spec_c1_bare_ret_returns_running_result_witness :
    exec_frame 8 cex_env0 cex_ret_fn 0 1 (RuntimeValue.int 42) empty_values =
      some (RuntimeValue.int 42, empty_values) :=
  spec_c1_bare_ret_returns_running_result 7 cex_env0 cex_ret_fn 0 1
    (RuntimeValue.int 42) empty_values (by decide) (by decide) (by decide)
    (by decide)

/-- C8.  `Interpreter::execute` clears the value table and call stack before
    running, so its result does not depend on the interpreter state left by
    earlier executions: with the same (pure, side-effect-free) external
    registry, module and entry, two calls return identical results. -/
theorem spec_c8_execute_deterministic (fuel : Nat)
    (externals : List (String × (List RuntimeValue → RuntimeValue)))
    (prior1 prior2 : Values) (mod : Module) (entry : String) :
    execute fuel externals prior1 mod entry =
      execute fuel externals prior2 mod entry := rfl

/-- C10.  Reading an SSA id that was never written — the reserved invalid
    id 0, or the parameter values of a called function, which
    `Interpreter::call_function` never binds (`args` is dropped) — is total:
    `get_value` returns the unit runtime value, which coerces to `0` and
    `0.0` in arithmetic, and a non-external call executes its body on the
    unmodified table. -/
theorem spec_c10_unwritten_value_reads_unit
    (values : Values) (v : Value) (fuel : Nat) (env : Env) (fn : Function)
    (args : List RuntimeValue)
    (hmiss : values v.id = none)
    (hext : env.find_external fn.name = none) :
    get_value values v = RuntimeValue.unit ∧
    RuntimeValue.to_int RuntimeValue.unit = 0 ∧
    RuntimeValue.to_float RuntimeValue.unit = 0.0 ∧
    call_function (fuel + 1) env fn args values =
      exec_frame fuel env fn 0 0 RuntimeValue.unit values := by
  refine ⟨?_, rfl, rfl, ?_⟩
  · rw [get_value, hmiss]
  · rw [call_function, hext]

/-- Concrete instance of C10: id 0 is unwritten in the empty table and
    `cex_ret_fn` is not registered as an external. -/
theorem spec_c10_unwritten_value_reads_unit_witness :
    get_value empty_values {} = RuntimeValue.unit ∧
    RuntimeValue.to_int RuntimeValue.unit = 0 ∧
    RuntimeValue.to_float RuntimeValue.unit = 0.0 ∧
    call_function 6 cex_env0 cex_ret_fn [] empty_values =
      exec_frame 5 cex_env0 cex_ret_fn 0 0 RuntimeValue.unit empty_values :=
  spec_c10_unwritten_value_reads_unit empty_values {} 5 cex_env0 cex_ret_fn []
    rfl rfl

/-- C6.  Resolution order of a `call` instruction: the externals registry is
    consulted first; only when the name is absent there is the module
    searched and the callee interpreted recursively; and when the name is in
    neither, the instruction produces the unit value and execution continues
    (the instruction succeeds — no fatal error). -/
theorem spec_c6_call_resolution_order (fuel : Nat) (env : Env)
    (instr : Instruction) (values : Values)
    (hop : instr.op = OpCode.CALL) :
    (∀ ext, env.find_external instr.callee = some ext →
      exec_instruction (fuel + 1) env instr values =
        some (ext (instr.operands.map (get_value values)),
              store_result instr
                (ext (instr.operands.map (get_value values))) values)) ∧
    (∀ callee_fn, env.find_external instr.callee = none →
      env.mod.get_function instr.callee = some callee_fn →
      exec_instruction (fuel + 1) env instr values =
        (call_function fuel env callee_fn
            (instr.operands.map (get_value values)) values).map
          (fun rv => (rv.1, store_result instr rv.1 rv.2))) ∧
    (env.find_external instr.callee = none →
      env.mod.get_function instr.callee = none →
      exec_instruction (fuel + 1) env instr values =
        some (RuntimeValue.unit, store_result instr RuntimeValue.unit values)) := by
  refine ⟨?_, ?_, ?_⟩
  · intro ext hext
    rw [exec_instruction]
    simp only [hop, hext, store_result]
    split <;> rfl
  · intro callee_fn hext hmod
    rw [exec_instruction]
    simp only [hop, hext, hmod]
    cases hcf : call_function fuel env callee_fn
        (instr.operands.map (get_value values)) values with
    | none => simp [store_result]
    | some rv =>
      simp only [Option.map_some]
      simp only [store_result]
      split <;> rfl
  · intro hext hmod
    rw [exec_instruction]
    simp only [hop, hext, hmod, store_result]
    split <;> rfl

/-- An external returning `int 5`, an instruction calling it, and fixtures
    for the three resolution cases of C6. -/
def cex_ext5 : List RuntimeValue → RuntimeValue := fun _ => RuntimeValue.int 5

/-- Environment registering the external `five` over the module containing
    `cex_ret_fn`. -/
def cex_env6 : Env :=
  { mod := { functions := [cex_ret_fn] }, externals := [("five", cex_ext5)] }

/-- A `call five()` instruction with no result value. -/
def cex_call_five : Instruction := { op := OpCode.CALL, callee := "five" }

/-- A `call main()` instruction (resolves in the module, not the registry). -/
def cex_call_main : Instruction := { op := OpCode.CALL, callee := "main" }

/-- A `call nobody()` instruction (resolves nowhere). -/
def cex_call_nobody : Instruction := { op := OpCode.CALL, callee := "nobody" }

/-- Concrete instance of C6: all three resolution cases at concrete inputs. -/
theorem spec_c6_call_resolution_order_witness :
    exec_instruction 4 cex_env6 cex_call_five empty_values =
      some (cex_ext5 [], store_result cex_call_five (cex_ext5 []) empty_values) ∧
    exec_instruction 4 cex_env6 cex_call_main empty_values =
      (call_function 3 cex_env6 cex_ret_fn [] empty_values).map
        (fun rv => (rv.1, store_result cex_call_main rv.1 rv.2)) ∧
    exec_instruction 4 cex_env6 cex_call_nobody empty_values =
      some (RuntimeValue.unit,
            store_result cex_call_nobody RuntimeValue.unit empty_values) :=
  ⟨(spec_c6_call_resolution_order 3 cex_env6 cex_call_five empty_values
      rfl).1 cex_ext5 rfl,
   (spec_c6_call_resolution_order 3 cex_env6 cex_call_main empty_values
      rfl).2.1 cex_ret_fn rfl rfl,
   (spec_c6_call_resolution_order 3 cex_env6 cex_call_nobody empty_values
      rfl).2.2 rfl rfl⟩

/-- C7.  A `div` whose two operands are non-float values never fails: when
    the divisor coerces to integer 0 the result is `int 0`, otherwise it is
    the truncating signed integer quotient, and the instruction always
    produces a value (`some`, never an abort). -/
theorem spec_c7_integer_division_by_zero_yields_zero (fuel : Nat) (env : Env)
    (instr : Instruction) (values : Values)
    (hop : instr.op = OpCode.DIV)
    (hl : (get_value values (instr.operands.getD 0 default)).is_float = false)
    (hr : (get_value values (instr.operands.getD 1 default)).is_float = false) :
    exec_instruction (fuel + 1) env instr values =
      some ((if (get_value values (instr.operands.getD 1 default)).to_int = 0
             then RuntimeValue.int 0
             else RuntimeValue.int
               (Int.tdiv (get_value values (instr.operands.getD 0 default)).to_int
                  (get_value values (instr.operands.getD 1 default)).to_int)),
            store_result instr
              (if (get_value values (instr.operands.getD 1 default)).to_int = 0
               then RuntimeValue.int 0
               else RuntimeValue.int
                 (Int.tdiv (get_value values (instr.operands.getD 0 default)).to_int
                    (get_value values (instr.operands.getD 1 default)).to_int))
              values) := by
  rw [exec_instruction]
  simp only [hop, hl, hr, Bool.or_self, Bool.false_eq_true, if_false,
    store_result]
  by_cases hz : (get_value values (instr.operands.getD 1 default)).to_int = 0
  · simp only [hz, ite_true, ite_false, ne_eq, not_true_eq_false]
    split <;> rfl
  · simp only [hz, ite_false, ite_true, ne_eq, not_false_eq_true]
    split <;> rfl

/-- A `div` instruction over ids 1 and 2 with result id 3. -/
def cex_div_instr : Instruction :=
  { op := OpCode.DIV,
    result := { id := 3, type := Ty.make_int },
    operands := [{ id := 1, type := Ty.make_int },
                 { id := 2, type := Ty.make_int }] }

/-- Value table binding id 1 to `int 7` and id 2 to `int 0`. -/
def cex_div_values : Values := fun id =>
  if id = 1 then some (RuntimeValue.int 7)
  else if id = 2 then some (RuntimeValue.int 0) else none

/-- Concrete instance of C7: `7 / 0` executes and produces `int 0`. -/
theorem spec_c7_integer_division_by_zero_yields_zero_witness :
    exec_instruction 1 cex_env0 cex_div_instr cex_div_values =
      some ((if (get_value cex_div_values
                  (cex_div_instr.operands.getD 1 default)).to_int = 0
             then RuntimeValue.int 0
             else RuntimeValue.int
               (Int.tdiv (get_value cex_div_values
                    (cex_div_instr.operands.getD 0 default)).to_int
                  (get_value cex_div_values
                    (cex_div_instr.operands.getD 1 default)).to_int)),
            store_result cex_div_instr
              (if (get_value cex_div_values
                    (cex_div_instr.operands.getD 1 default)).to_int = 0
               then RuntimeValue.int 0
               else RuntimeValue.int
                 (Int.tdiv (get_value cex_div_values
                      (cex_div_instr.operands.getD 0 default)).to_int
                    (get_value cex_div_values
                      (cex_div_instr.operands.getD 1 default)).to_int))
              cex_div_values) :=
  spec_c7_integer_division_by_zero_yields_zero 0 cex_env0 cex_div_instr
    cex_div_values rfl rfl rfl

/-! ### C4: the value table is interpreter-wide, not per-frame -/

/-- A callee `g` whose body is `%1 = const.i64 99; ret %1`: its SSA id 1
    collides with the caller's id 1 (value ids are only unique within one
    function). -/
def cex_g_fn : Function :=
  { name := "g",
    blocks := [
      { id := 0, label := "entry", instrs := [
          { op := OpCode.CONST_INT,
            result := { id := 1, type := Ty.make_int }, imm_int := 99 },
          { op := OpCode.RET,
            operands := [{ id := 1, type := Ty.make_int }] } ] } ],
    next_value_id := 2, next_block_id := 1 }

/-- Environment whose module contains only `g`. -/
def cex_env4 : Env := { mod := { functions := [cex_g_fn] }, externals := [] }

/-- A `call g()` instruction executed by some caller. -/
def cex_call_g : Instruction := { op := OpCode.CALL, callee := "g" }

/-- Caller-side value table where the caller has defined id 1 as `int 7`
    before the call. -/
def cex_caller_values : Values := fun id =>
  if id = 1 then some (RuntimeValue.int 7) else none

/-- C4 counterexample.  `CallFrame::locals` is never used: `values_` is one
    interpreter-wide map, so when the callee `g` writes its own SSA id 1,
    the caller's id 1 (previously `int 7`) is overwritten with `int 99` and
    does not map to its old value after the call returns. -/
theorem spec_c4_per_frame_values_counterexample :
    cex_caller_values 1 = some (RuntimeValue.int 7) ∧
    (exec_instruction 10 cex_env4 cex_call_g cex_caller_values).map
        (fun p => p.2 1) = some (some (RuntimeValue.int 99)) ∧
    some (some (RuntimeValue.int 99)) ≠
      (some (some (RuntimeValue.int 7)) :
        Option (Option RuntimeValue)) := by
  refine ⟨rfl, rfl, ?_⟩
  intro h
  injection h with h1
  injection h1 with h2
  injection h2 with h3
  exact absurd h3 (by decide)

/-- `set_value` never removes an entry from the table. -/
theorem set_value_keeps_defined (values : Values) (v : Value)
    (rv : RuntimeValue) (id : Nat) (h : (values id).isSome = true) :
    ((set_value values v rv) id).isSome = true := by
  rw [set_value]
  by_cases he : id = v.id <;> simp [he, h]

/-- Domain monotonicity of the interpreter: execution may overwrite table
    entries (as C4's counterexample shows) but never deletes them — every
    id defined before a call, frame step or instruction is still defined
    afterwards.  Proved simultaneously for the three mutually recursive
    interpreter functions by induction on the fuel. -/
theorem interp_defined_ids_mono (fuel : Nat) :
    (∀ env fn args values r values',
        call_function fuel env fn args values = some (r, values') →
        ∀ id, (values id).isSome = true → (values' id).isSome = true) ∧
    (∀ env fn b i res values r values',
        exec_frame fuel env fn b i res values = some (r, values') →
        ∀ id, (values id).isSome = true → (values' id).isSome = true) ∧
    (∀ env instr values r values',
        exec_instruction fuel env instr values = some (r, values') →
        ∀ id, (values id).isSome = true → (values' id).isSome = true) := by
  induction fuel with
  | zero =>
    refine ⟨?_, ?_, ?_⟩
    · intro env fn args values r values' h
      rw [call_function] at h
      exact Option.noConfusion h
    · intro env fn b i res values r values' h
      rw [exec_frame] at h
      exact Option.noConfusion h
    · intro env instr values r values' h
      rw [exec_instruction] at h
      exact Option.noConfusion h
  | succ fuel ih =>
    obtain ⟨ihc, ihf, ihi⟩ := ih
    have hinstr : ∀ env instr values r values',
        exec_instruction (fuel + 1) env instr values = some (r, values') →
        ∀ id, (values id).isSome = true → (values' id).isSome = true := by
      intro env instr values r values' h id hdef
      rw [exec_instruction] at h
      split at h
      · exact absurd h Option.noConfusion
      · rename_i result values2 heq
        have hmono : (values2 id).isSome = true := by
          split at heq
          all_goals try split at heq
          all_goals try dsimp only [] at heq
          all_goals try split at heq
          all_goals
            first
              | (injection heq with h1; injection h1 with h2 h3;
                 subst h3; exact hdef)
              | (exact ihc _ _ _ _ _ _ heq id hdef)
        split at h <;>
          (injection h with h1; injection h1 with h2 h3; subst h3)
        · exact set_value_keeps_defined _ _ _ _ hmono
        · exact hmono
    refine ⟨?_, ?_, hinstr⟩
    · intro env fn args values r values' h id hdef
      rw [call_function] at h
      split at h
      · injection h with h1; injection h1 with h2 h3; subst h3; exact hdef
      · exact ihf _ _ _ _ _ _ _ _ h id hdef
    · intro env fn b i res values r values' h id hdef
      rw [exec_frame] at h
      dsimp only [] at h
      split at h
      · split at h
        · split at h
          · split at h
            · injection h with h1; injection h1 with h2 h3; subst h3
              exact hdef
            · injection h with h1; injection h1 with h2 h3; subst h3
              exact hdef
          · exact ihf _ _ _ _ _ _ _ _ h id hdef
          · try dsimp only [] at h
            split at h <;> exact ihf _ _ _ _ _ _ _ _ h id hdef
          · split at h
            · exact absurd h Option.noConfusion
            · rename_i rv heq
              exact ihf _ _ _ _ _ _ _ _ h id
                (ihi _ _ _ _ _ heq id hdef)
        · split at h
          · exact ihf _ _ _ _ _ _ _ _ h id hdef
          · injection h with h1; injection h1 with h2 h3; subst h3
            exact hdef
      · injection h with h1; injection h1 with h2 h3; subst h3
        exact hdef

/-- C4 (amended).  The caller's SSA value ids are not per-frame state: the
    table is shared across frames and a callee that writes the same id
    overwrites the caller's binding (see the counterexample).  What survives
    the call is definedness: after the callee returns, every id the caller
    had defined before the call still maps to some runtime value. -/
theorem spec_c4_caller_ids_stay_defined_across_calls
    (fuel : Nat) (env : Env) (fn : Function) (args : List RuntimeValue)
    (values : Values) (r : RuntimeValue) (values' : Values) (id : Nat)
    (w : RuntimeValue)
    (hcall : call_function fuel env fn args values = some (r, values'))
    (hdef : values id = some w) :
    ∃ w', values' id = some w' := by
  have h := (interp_defined_ids_mono fuel).1 env fn args values r values'
    hcall id (by rw [hdef]; rfl)
  exact Option.isSome_iff_exists.mp h

/-- Concrete instance of the amended C4 statement: after `call g()`
    overwrites id 1, the id is still defined (with the callee's value). -/
theorem spec_c4_caller_ids_stay_defined_across_calls_witness :
    ∃ w', (set_value cex_caller_values { id := 1, type := Ty.make_int }
            (RuntimeValue.int 99)) 1 = some w' :=
  spec_c4_caller_ids_stay_defined_across_calls 9 cex_env4 cex_g_fn []
    cex_caller_values (RuntimeValue.int 99)
    (set_value cex_caller_values { id := 1, type := Ty.make_int }
      (RuntimeValue.int 99)) 1 (RuntimeValue.int 7) rfl rfl

/-! ## AST (src/include/ast/ast.hpp, zero::ast)

`unique_ptr` children that the lowering null-checks are `Option`; statement
lists and call-argument lists, which the lowering dereferences without a
null check, are plain lists. -/

/-- Embeds `zero::ast::BinOp`. -/
inductive BinOp where
  | ADD | SUB | MUL | DIV | EQ | NE | LT | GT | LE | GE
deriving DecidableEq, Repr

/-- Embeds `zero::ast::UnaryOp`. -/
inductive UnaryOp where
  | NEG | NOT
deriving DecidableEq, Repr

/-- Embeds `zero::ast::TypeKind` (distinct from `zero::types::TypeKind`). -/
inductive TypeKindA where
  | INT | FLOAT | VOID | TENSOR | UNKNOWN
deriving DecidableEq, Repr

/-- Embeds `zero::ast::Type`. -/
structure TyA where
  kind : TypeKindA := TypeKindA.UNKNOWN
  span : Span := {}
deriving DecidableEq, Repr

/-- Embeds the `zero::ast::Expr` variant (`Identifier | IntLiteral |
    FloatLiteral | BinaryExpr | UnaryExpr | CallExpr | GroupExpr`). -/
inductive Expr where
  | ident (name : String) (span : Span)
  | intLit (value : Int) (span : Span)
  | floatLit (value : Float) (span : Span)
  | binary (op : BinOp) (left : Option Expr) (right : Option Expr) (span : Span)
  | unary (op : UnaryOp) (operand : Option Expr) (span : Span)
  | callE (callee : String) (args : List Expr) (span : Span)
  | group (inner : Option Expr) (span : Span)

/-- Embeds the `zero::ast::Stmt` variant (`LetStmt | ReturnStmt | ExprStmt |
    IfStmt | WhileStmt | Block`). -/
inductive Stmt where
  | letStmt (name : String) (type_annot : Option TyA) (init : Option Expr)
      (span : Span)
  | returnStmt (value : Option Expr) (span : Span)
  | exprStmt (expr : Option Expr) (span : Span)
  | ifStmt (condition : Option Expr) (then_branch : List Stmt)
      (else_branch : List Stmt) (span : Span)
  | whileStmt (condition : Option Expr) (body : List Stmt) (span : Span)
  | blockStmt (stmts : List Stmt) (span : Span)

/-- Embeds `zero::ast::Param`. -/
structure Param where
  name : String := ""
  type : TyA := {}
  span : Span := {}

/-- Embeds `zero::ast::FnDecl`. -/
structure FnDecl where
  name : String := ""
  params : List Param := []
  return_type : Option TyA := none
  body : List Stmt := []
  span : Span := {}

/-- Embeds `zero::ast::Program`. -/
structure Program where
  functions : List FnDecl := []

/-! ## AST→IR lowering (src/unnamed/part_016 lowering.cpp,
    src/include/ir/builder.hpp) -/

/-- Embeds the static `ast_to_type` helper of lowering.cpp. -/
def ast_to_type : TypeKindA → Ty
  | TypeKindA.INT => Ty.make_int
  | TypeKindA.FLOAT => Ty.make_float
  | TypeKindA.VOID => Ty.make_void
  | TypeKindA.TENSOR => Ty.make_tensor
  | TypeKindA.UNKNOWN => Ty.make_unknown

/-- In-place update of the element at an index (the effect of mutating a
    block through `IRBuilder::current_block_`). -/
def modify_at (f : α → α) : Nat → List α → List α
  | _, [] => []
  | 0, x :: xs => f x :: xs
  | n + 1, x :: xs => x :: modify_at f n xs

/-- The lowering state: the function being built (`IRBuilder::fn_`), the
    index of the insertion block (`IRBuilder::current_block_`; block ids
    equal block indices since every block is created by
    `Function::new_block`), and the per-function symbol table
    (`Lowering::symbols_`). -/
structure LowState where
  fn : Function
  insert : Nat
  symbols : List (String × Value)

/-- Embeds `IRBuilder::emit`: append the instruction to the current block. -/
def emit (s : LowState) (instr : Instruction) : LowState :=
  { s with fn := { s.fn with
      blocks := modify_at (fun bb => bb.add instr) s.insert s.fn.blocks } }

/-- `Function::new_value` lifted to the lowering state. -/
def low_new_value (s : LowState) (ty : Ty) : Value × LowState :=
  let vf := s.fn.new_value ty
  (vf.1, { s with fn := vf.2 })

/-- Embeds `IRBuilder::const_int`. -/
def const_int (s : LowState) (value : Int) : Value × LowState :=
  let rs := low_new_value s Ty.make_int
  (rs.1, emit rs.2 { op := OpCode.CONST_INT, result := rs.1, imm_int := value })

/-- Embeds `IRBuilder::const_float`. -/
def const_float (s : LowState) (value : Float) : Value × LowState :=
  let rs := low_new_value s Ty.make_float
  (rs.1, emit rs.2 { op := OpCode.CONST_FLOAT, result := rs.1,
                     imm_float := value })

/-- Embeds `IRBuilder::binary_op` (used by add/sub/mul/div). -/
def binary_op (s : LowState) (op : OpCode) (lhs rhs : Value) :
    Value × LowState :=
  let rs := low_new_value s (binary_result_type lhs.type rhs.type)
  (rs.1, emit rs.2 { op := op, result := rs.1, operands := [lhs, rhs] })

/-- Embeds `IRBuilder::cmp` (bool results are typed int). -/
def cmp_op (s : LowState) (op : OpCode) (lhs rhs : Value) :
    Value × LowState :=
  let rs := low_new_value s Ty.make_int
  (rs.1, emit rs.2 { op := op, result := rs.1, operands := [lhs, rhs] })

/-- Embeds `IRBuilder::neg`. -/
def neg_op (s : LowState) (operand : Value) : Value × LowState :=
  let rs := low_new_value s operand.type
  (rs.1, emit rs.2 { op := OpCode.NEG, result := rs.1, operands := [operand] })

/-- Embeds `IRBuilder::ret()` (bare return). -/
def ret_bare (s : LowState) : LowState :=
  emit s { op := OpCode.RET }

/-- Embeds `IRBuilder::ret(value)`. -/
def ret_value (s : LowState) (value : Value) : LowState :=
  emit s { op := OpCode.RET, operands := [value] }

/-- Embeds `IRBuilder::br`. -/
def br_op (s : LowState) (target : Nat) : LowState :=
  emit s { op := OpCode.BR, target_block := target }

/-- Embeds `IRBuilder::cond_br`. -/
def cond_br_op (s : LowState) (cond : Value) (then_bb else_bb : Nat) :
    LowState :=
  emit s { op := OpCode.COND_BR, operands := [cond],
           target_block := then_bb, else_block := else_bb }

/-- Embeds `IRBuilder::call`: a fresh result value only for non-void return
    types. -/
def call_op (s : LowState) (callee : String) (args : List Value)
    (ret_type : Ty) : Value × LowState :=
  if ret_type.is_void then
    ({}, emit s { op := OpCode.CALL, callee := callee, operands := args })
  else
    let rs := low_new_value s ret_type
    (rs.1, emit rs.2 { op := OpCode.CALL, result := rs.1, callee := callee,
                       operands := args })

/-- Embeds `IRBuilder::create_block`. -/
def create_block (s : LowState) (label : String) : Nat × LowState :=
  let bf := s.fn.new_block label
  (bf.1, { s with fn := bf.2 })

/-- Embeds `IRBuilder::set_insert_point`. -/
def set_insert_point (s : LowState) (bb : Nat) : LowState :=
  { s with insert := bb }

mutual

/-- Embeds `Lowering::lower_expr`. -/
def lower_expr (s : LowState) : Expr → Value × LowState
  | Expr.ident name _ =>
    match s.symbols.lookup name with
    | some v => (v, s)
    | none => ({}, s)
  | Expr.intLit value _ => const_int s value
  | Expr.floatLit value _ => const_float s value
  | Expr.binary op left right _ =>
    let ls := lower_expr_opt s left
    let rs := lower_expr_opt ls.2 right
    match op with
    | BinOp.ADD => binary_op rs.2 OpCode.ADD ls.1 rs.1
    | BinOp.SUB => binary_op rs.2 OpCode.SUB ls.1 rs.1
    | BinOp.MUL => binary_op rs.2 OpCode.MUL ls.1 rs.1
    | BinOp.DIV => binary_op rs.2 OpCode.DIV ls.1 rs.1
    | BinOp.EQ => cmp_op rs.2 OpCode.CMP_EQ ls.1 rs.1
    | BinOp.NE => cmp_op rs.2 OpCode.CMP_NE ls.1 rs.1
    | BinOp.LT => cmp_op rs.2 OpCode.CMP_LT ls.1 rs.1
    | BinOp.LE => cmp_op rs.2 OpCode.CMP_LE ls.1 rs.1
    | BinOp.GT => cmp_op rs.2 OpCode.CMP_GT ls.1 rs.1
    | BinOp.GE => cmp_op rs.2 OpCode.CMP_GE ls.1 rs.1
  | Expr.unary op operand _ =>
    let os := lower_expr_opt s operand
    match op with
    | UnaryOp.NEG => neg_op os.2 os.1
    | UnaryOp.NOT => (os.1, os.2)
  | Expr.callE callee args _ =>
    let as_ := lower_expr_list s args
    call_op as_.2 callee as_.1 Ty.make_void
  | Expr.group inner _ => lower_expr_opt s inner

/-- Null-checked child lowering (`e.left ? lower_expr(...) : Value{}`). -/
def lower_expr_opt (s : LowState) : Option Expr → Value × LowState
  | some e => lower_expr s e
  | none => ({}, s)

/-- Left-to-right lowering of a call's argument list. -/
def lower_expr_list (s : LowState) : List Expr → List Value × LowState
  | [] => ([], s)
  | e :: rest =>
    let vs := lower_expr s e
    let rest_ := lower_expr_list vs.2 rest
    (vs.1 :: rest_.1, rest_.2)

end

mutual

/-- Embeds `Lowering::lower_stmt`.  The bodies of `Lowering::lower_if` and
    `Lowering::lower_while` are inlined into the `ifStmt` and `whileStmt`
    arms, with exactly the source's sequence of block creations, branch
    emissions and insert-point moves. -/
def lower_stmt (s : LowState) : Stmt → LowState
  | Stmt.letStmt name _ init _ =>
    match init with
    | some e =>
      let vs := lower_expr s e
      { vs.2 with symbols := (name, vs.1) :: vs.2.symbols }
    | none => s
  | Stmt.returnStmt value _ =>
    match value with
    | some e =>
      let vs := lower_expr s e
      ret_value vs.2 vs.1
    | none => ret_bare s
  | Stmt.exprStmt expr _ =>
    match expr with
    | some e => (lower_expr s e).2
    | none => s
  | Stmt.ifStmt condition then_branch else_branch _ =>
    let cs := lower_expr_opt s condition
    let tb := create_block cs.2 "if.then"
    let mb := create_block tb.2 "if.end"
    if else_branch.isEmpty then
      let s1 := cond_br_op mb.2 cs.1 tb.1 mb.1
      let s2 := set_insert_point s1 tb.1
      let s3 := lower_stmts s2 then_branch
      let s4 := br_op s3 mb.1
      set_insert_point s4 mb.1
    else
      let eb := create_block mb.2 "if.else"
      let s1 := cond_br_op eb.2 cs.1 tb.1 eb.1
      let s2 := set_insert_point s1 eb.1
      let s3 := lower_stmts s2 else_branch
      let s4 := br_op s3 mb.1
      let s5 := set_insert_point s4 tb.1
      let s6 := lower_stmts s5 then_branch
      let s7 := br_op s6 mb.1
      set_insert_point s7 mb.1
  | Stmt.whileStmt condition body _ =>
    let cb := create_block s "while.cond"
    let bb := create_block cb.2 "while.body"
    let eb := create_block bb.2 "while.end"
    let s1 := br_op eb.2 cb.1
    let s2 := set_insert_point s1 cb.1
    let cs := lower_expr_opt s2 condition
    let s3 := cond_br_op cs.2 cs.1 bb.1 eb.1
    let s4 := set_insert_point s3 bb.1
    let s5 := lower_stmts s4 body
    let s6 := br_op s5 cb.1
    set_insert_point s6 eb.1
  | Stmt.blockStmt stmts _ => lower_stmts s stmts

/-- Statement-list lowering (the bodies of functions, branches and loops). -/
def lower_stmts (s : LowState) : List Stmt → LowState
  | [] => s
  | st :: rest => lower_stmts (lower_stmt s st) rest

end

/-- Embeds `Lowering::lower_function`: create the IR function, let the
    builder create the entry block, clear the symbol table, bind fresh
    parameter values, lower the body, and append a bare `ret` when the last
    block's trailing instruction is not a `ret`. -/
def lower_function (mod : Module) (fn_ast : FnDecl) : Module :=
  let param_types := fn_ast.params.map (fun p => ast_to_type p.type.kind)
  let ret_type :=
    match fn_ast.return_type with
    | some t => ast_to_type t.kind
    | none => Ty.make_void
  let fn0 : Function :=
    { name := fn_ast.name, param_types := param_types,
      return_type := ret_type }
  let ef := fn0.entry
  let s0 : LowState := { fn := ef.2, insert := ef.1, symbols := [] }
  let s1 := fn_ast.params.foldl
    (fun s p =>
      let vs := low_new_value s (ast_to_type p.type.kind)
      { vs.2 with symbols := (p.name, vs.1) :: vs.2.symbols }) s0
  let s2 := lower_stmts s1 fn_ast.body
  let s3 :=
    if s2.fn.blocks.isEmpty ∨
       (s2.fn.blocks.getLast?.getD default).instrs.isEmpty ∨
       ((s2.fn.blocks.getLast?.getD default).instrs.getLast?.getD default).op ≠
         OpCode.RET
    then ret_bare s2 else s2
  { functions := mod.functions ++ [s3.fn] }

/-- Embeds `Lowering::lower`: lower each function of the program in order
    into a fresh module. -/
def lower (prog : Program) : Module :=
  prog.functions.foldl lower_function { functions := [] }

/-- Terminator opcodes (`ret`, `br`, `cond_br`). -/
def is_terminator (op : OpCode) : Bool :=
  match op with
  | OpCode.RET => true
  | OpCode.BR => true
  | OpCode.COND_BR => true
  | _ => false

/-! ### Terminator discipline: auxiliary lemmas -/

theorem modify_at_length (f : α → α) (i : Nat) (l : List α) :
    (modify_at f i l).length = l.length := by
  induction l generalizing i with
  | nil => cases i <;> simp [modify_at]
  | cons x xs ih => cases i <;> simp [modify_at, ih]

theorem getD_modify_at_ne (f : α → α) (i j : Nat) (l : List α) (d : α)
    (h : j ≠ i) : (modify_at f i l).getD j d = l.getD j d := by
  induction l generalizing i j with
  | nil => cases i <;> simp [modify_at]
  | cons x xs ih =>
    cases i with
    | zero =>
      cases j with
      | zero => exact absurd rfl h
      | succ j => simp [modify_at]
    | succ i =>
      cases j with
      | zero => simp [modify_at]
      | succ j =>
        simp only [modify_at, List.getD_cons_succ]
        exact ih _ _ (fun hh => h (by omega))

theorem getD_modify_at_eq (f : α → α) (i : Nat) (l : List α) (d : α)
    (h : i < l.length) : (modify_at f i l).getD i d = f (l.getD i d) := by
  induction l generalizing i with
  | nil => simp at h
  | cons x xs ih =>
    cases i with
    | zero => simp [modify_at]
    | succ i =>
      simp only [modify_at, List.getD_cons_succ]
      exact ih _ (by simpa using h)

theorem emit_blocks_length (s : LowState) (instr : Instruction) :
    (emit s instr).fn.blocks.length = s.fn.blocks.length := by
  simp [emit, modify_at_length]

/-- Effect signature of expression lowering on the block structure: the
    insertion point, block count, block-id counter and every block other
    than the insertion block are untouched (expressions emit only
    non-terminator instructions into the current block). -/
def expr_shape (s s' : LowState) : Prop :=
  s'.insert = s.insert ∧
  s'.fn.blocks.length = s.fn.blocks.length ∧
  s'.fn.next_block_id = s.fn.next_block_id ∧
  ∀ j, j ≠ s.insert →
    s'.fn.blocks.getD j default = s.fn.blocks.getD j default

theorem expr_shape_refl (s : LowState) : expr_shape s s :=
  ⟨rfl, rfl, rfl, fun _ _ => rfl⟩

theorem expr_shape_trans {s1 s2 s3 : LowState} (h12 : expr_shape s1 s2)
    (h23 : expr_shape s2 s3) : expr_shape s1 s3 := by
  obtain ⟨a1, b1, c1, d1⟩ := h12
  obtain ⟨a2, b2, c2, d2⟩ := h23
  exact ⟨a2.trans a1, b2.trans b1, c2.trans c1,
    fun j hj => (d2 j (by rw [a1]; exact hj)).trans (d1 j hj)⟩

theorem emit_shape (s : LowState) (instr : Instruction) :
    expr_shape s (emit s instr) := by
  refine ⟨rfl, emit_blocks_length s instr, rfl, ?_⟩
  intro j hj
  simp only [emit]
  exact getD_modify_at_ne _ _ _ _ _ hj

theorem low_new_value_shape (s : LowState) (ty : Ty) :
    expr_shape s (low_new_value s ty).2 :=
  ⟨rfl, rfl, rfl, fun _ _ => rfl⟩

theorem const_int_shape (s : LowState) (v : Int) :
    expr_shape s (const_int s v).2 :=
  expr_shape_trans (low_new_value_shape s _) (emit_shape _ _)

theorem const_float_shape (s : LowState) (v : Float) :
    expr_shape s (const_float s v).2 :=
  expr_shape_trans (low_new_value_shape s _) (emit_shape _ _)

theorem binary_op_shape (s : LowState) (op : OpCode) (lhs rhs : Value) :
    expr_shape s (binary_op s op lhs rhs).2 :=
  expr_shape_trans (low_new_value_shape s _) (emit_shape _ _)

theorem cmp_op_shape (s : LowState) (op : OpCode) (lhs rhs : Value) :
    expr_shape s (cmp_op s op lhs rhs).2 :=
  expr_shape_trans (low_new_value_shape s _) (emit_shape _ _)

theorem neg_op_shape (s : LowState) (operand : Value) :
    expr_shape s (neg_op s operand).2 :=
  expr_shape_trans (low_new_value_shape s _) (emit_shape _ _)

theorem call_op_shape (s : LowState) (callee : String) (args : List Value)
    (ret_type : Ty) : expr_shape s (call_op s callee args ret_type).2 := by
  rw [call_op]
  split
  · exact emit_shape _ _
  · exact expr_shape_trans (low_new_value_shape s _) (emit_shape _ _)

set_option maxHeartbeats 1600000 in
mutual

theorem lower_expr_shape : (e : Expr) → (s : LowState) →
    expr_shape s (lower_expr s e).2
  | Expr.ident name _, s => by
    rw [lower_expr.eq_def]
    dsimp only []
    split <;> exact expr_shape_refl _
  | Expr.intLit v _, s => const_int_shape s v
  | Expr.floatLit v _, s => const_float_shape s v
  | Expr.binary op left right _, s => by
    have h1 := lower_expr_opt_shape left s
    have h2 := lower_expr_opt_shape right (lower_expr_opt s left).2
    have h12 := expr_shape_trans h1 h2
    rw [lower_expr.eq_def]
    dsimp only []
    cases op <;>
      exact expr_shape_trans h12
        (by first
          | exact binary_op_shape _ _ _ _
          | exact cmp_op_shape _ _ _ _)
  | Expr.unary op operand _, s => by
    have h1 := lower_expr_opt_shape operand s
    rw [lower_expr.eq_def]
    dsimp only []
    cases op
    · exact expr_shape_trans h1 (neg_op_shape _ _)
    · exact h1
  | Expr.callE callee args _, s => by
    have h1 := lower_expr_list_shape args s
    rw [lower_expr.eq_def]
    dsimp only []
    exact expr_shape_trans h1 (call_op_shape _ _ _ _)
  | Expr.group inner _, s => by
    rw [lower_expr.eq_def]
    dsimp only []
    exact lower_expr_opt_shape inner s

theorem lower_expr_opt_shape : (o : Option Expr) → (s : LowState) →
    expr_shape s (lower_expr_opt s o).2
  | some e, s => lower_expr_shape e s
  | none, s => expr_shape_refl s

theorem lower_expr_list_shape : (l : List Expr) → (s : LowState) →
    expr_shape s (lower_expr_list s l).2
  | [], s => expr_shape_refl s
  | e :: rest, s =>
    expr_shape_trans (lower_expr_shape e s)
      (lower_expr_list_shape rest (lower_expr s e).2)

end

/-- The lowering invariant: the insertion index is a real block, block ids
    equal block indices (`next_block_id` counts the blocks), and every block
    other than the insertion block that is non-empty was sealed by the
    lowering with a trailing `br` or `cond_br` (the insert point only ever
    moves away from a block right after emitting one of those). -/
def sealed_inv (s : LowState) : Prop :=
  s.insert < s.fn.blocks.length ∧
  s.fn.next_block_id = s.fn.blocks.length ∧
  ∀ j instr, j ≠ s.insert →
    (s.fn.blocks.getD j default).instrs.getLast? = some instr →
    instr.op = OpCode.BR ∨ instr.op = OpCode.COND_BR

theorem shape_inv {s s' : LowState} (hsh : expr_shape s s')
    (hinv : sealed_inv s) : sealed_inv s' := by
  obtain ⟨hi, hl, hn, hb⟩ := hsh
  obtain ⟨h1, h2, h3⟩ := hinv
  refine ⟨?_, ?_, ?_⟩
  · rw [hi, hl]; exact h1
  · rw [hn, hl]; exact h2
  · intro j instr hj hlast
    rw [hi] at hj
    rw [hb j hj] at hlast
    exact h3 j instr hj hlast

theorem create_block_len (s : LowState) (label : String) :
    (create_block s label).2.fn.blocks.length = s.fn.blocks.length + 1 := by
  simp [create_block, Function.new_block]

theorem create_block_insert (s : LowState) (label : String) :
    (create_block s label).2.insert = s.insert := rfl

theorem create_block_handle {s : LowState}
    (h2 : s.fn.next_block_id = s.fn.blocks.length) (label : String) :
    (create_block s label).1 = s.fn.blocks.length := by
  simp [create_block, Function.new_block, h2]

theorem create_block_inv {s : LowState} (hinv : sealed_inv s)
    (label : String) : sealed_inv (create_block s label).2 := by
  obtain ⟨h1, h2, h3⟩ := hinv
  refine ⟨?_, ?_, ?_⟩
  · rw [create_block_insert, create_block_len]; omega
  · simp [create_block, Function.new_block]; omega
  · intro j instr hj hlast
    rw [create_block_insert] at hj
    by_cases hjl : j < s.fn.blocks.length
    · have hsame : (create_block s label).2.fn.blocks.getD j default =
          s.fn.blocks.getD j default := by
        simp only [create_block, Function.new_block]
        exact List.getD_append _ _ _ _ hjl
      rw [hsame] at hlast
      exact h3 j instr hj hlast
    · have hempty : ((create_block s label).2.fn.blocks.getD j default).instrs
          = [] := by
        simp only [create_block, Function.new_block]
        by_cases hje : j = s.fn.blocks.length
        · subst hje
          rw [List.getD_append_right _ _ _ _ (le_refl _)]
          simp
        · rw [List.getD_eq_default]
          · rfl
          · simp only [List.length_append, List.length_cons, List.length_nil]
            omega
      rw [hempty] at hlast
      simp at hlast

theorem set_insert_fn (s : LowState) (t : Nat) :
    (set_insert_point s t).fn = s.fn := rfl

/-- Moving the insert point right after emitting a `br` or `cond_br` into
    the current block preserves the sealing invariant: the abandoned block's
    trailing instruction is the just-emitted branch. -/
theorem seal_move_inv {s : LowState} (hinv : sealed_inv s)
    (instr : Instruction)
    (hterm : instr.op = OpCode.BR ∨ instr.op = OpCode.COND_BR)
    (t : Nat) (ht : t < s.fn.blocks.length) :
    sealed_inv (set_insert_point (emit s instr) t) := by
  obtain ⟨h1, h2, h3⟩ := hinv
  refine ⟨?_, ?_, ?_⟩
  · show t < (emit s instr).fn.blocks.length
    rw [emit_blocks_length]; exact ht
  · show (emit s instr).fn.next_block_id = (emit s instr).fn.blocks.length
    rw [emit_blocks_length]
    exact h2
  · intro j instr2 hj hlast
    by_cases hji : j = s.insert
    · subst hji
      have hget : (set_insert_point (emit s instr) t).fn.blocks.getD
          s.insert default = (s.fn.blocks.getD s.insert default).add instr := by
        simp only [set_insert_fn, emit]
        exact getD_modify_at_eq _ _ _ _ h1
      rw [hget] at hlast
      simp only [BasicBlock.add, List.getLast?_concat, Option.some.injEq]
        at hlast
      rw [← hlast]
      exact hterm
    · have hget : (set_insert_point (emit s instr) t).fn.blocks.getD j default
          = s.fn.blocks.getD j default := by
        simp only [set_insert_fn, emit]
        exact getD_modify_at_ne _ _ _ _ _ hji
      rw [hget] at hlast
      exact h3 j instr2 hji hlast

/-- Post-relation of statement lowering: the invariant is preserved and the
    block list only grows. -/
def low_post (s s' : LowState) : Prop :=
  (sealed_inv s → sealed_inv s') ∧
  s.fn.blocks.length ≤ s'.fn.blocks.length

theorem low_post_refl (s : LowState) : low_post s s :=
  ⟨fun h => h, le_refl _⟩

theorem low_post_trans {s1 s2 s3 : LowState} (h12 : low_post s1 s2)
    (h23 : low_post s2 s3) : low_post s1 s3 :=
  ⟨fun h => h23.1 (h12.1 h), le_trans h12.2 h23.2⟩

theorem shape_low_post {s s' : LowState} (hsh : expr_shape s s') :
    low_post s s' :=
  ⟨shape_inv hsh, le_of_eq hsh.2.1.symm⟩

theorem emit_low_post (s : LowState) (instr : Instruction) :
    low_post s (emit s instr) :=
  shape_low_post (emit_shape s instr)

/-- Invariant/growth for the `lower_if` chain without an else-branch. -/
theorem if_chain_no_else (cs2 : LowState) (cv : Value) (t : List Stmt)
    (tb mb : Nat × LowState) (s1 s2 s3 s4 s5 : LowState)
    (htb : tb = create_block cs2 "if.then")
    (hmb : mb = create_block tb.2 "if.end")
    (hs1 : s1 = cond_br_op mb.2 cv tb.1 mb.1)
    (hs2 : s2 = set_insert_point s1 tb.1)
    (hs3 : s3 = lower_stmts s2 t)
    (hs4 : s4 = br_op s3 mb.1)
    (hs5 : s5 = set_insert_point s4 mb.1)
    (hL : low_post s2 s3) :
    low_post cs2 s5 := by
  have hlen_tb : tb.2.fn.blocks.length = cs2.fn.blocks.length + 1 := by
    rw [htb]; exact create_block_len _ _
  have hlen_mb : mb.2.fn.blocks.length = cs2.fn.blocks.length + 2 := by
    rw [hmb, create_block_len, hlen_tb]
  have hlen_s2 : s2.fn.blocks.length = cs2.fn.blocks.length + 2 := by
    rw [hs2, hs1, set_insert_fn, cond_br_op, emit_blocks_length, hlen_mb]
  have hlen_s5 : s5.fn.blocks.length = s3.fn.blocks.length := by
    rw [hs5, hs4, set_insert_fn, br_op, emit_blocks_length]
  constructor
  · intro hinv
    have htb1 : tb.1 = cs2.fn.blocks.length := by
      rw [htb]; exact create_block_handle hinv.2.1 _
    have hinv_tb : sealed_inv tb.2 := by
      rw [htb]; exact create_block_inv hinv _
    have hmb1 : mb.1 = cs2.fn.blocks.length + 1 := by
      rw [hmb, create_block_handle hinv_tb.2.1, hlen_tb]
    have hinv_mb : sealed_inv mb.2 := by
      rw [hmb]; exact create_block_inv hinv_tb _
    have hinv_s2 : sealed_inv s2 := by
      rw [hs2, hs1, cond_br_op]
      exact seal_move_inv hinv_mb _ (Or.inr rfl) tb.1
        (by rw [htb1, hlen_mb]; omega)
    have hinv_s3 : sealed_inv s3 := hL.1 hinv_s2
    have hlen_s3 : cs2.fn.blocks.length + 2 ≤ s3.fn.blocks.length := by
      have := hL.2
      omega
    rw [hs5, hs4, br_op]
    exact seal_move_inv hinv_s3 _ (Or.inl rfl) mb.1 (by omega)
  · have := hL.2
    omega

/-- Invariant/growth for the `lower_if` chain with an else-branch. -/
theorem if_chain_else (cs2 : LowState) (cv : Value) (t e : List Stmt)
    (tb mb eb : Nat × LowState) (s1 s2 s3 s4 s5 s6 s7 s8 : LowState)
    (htb : tb = create_block cs2 "if.then")
    (hmb : mb = create_block tb.2 "if.end")
    (heb : eb = create_block mb.2 "if.else")
    (hs1 : s1 = cond_br_op eb.2 cv tb.1 eb.1)
    (hs2 : s2 = set_insert_point s1 eb.1)
    (hs3 : s3 = lower_stmts s2 e)
    (hs4 : s4 = br_op s3 mb.1)
    (hs5 : s5 = set_insert_point s4 tb.1)
    (hs6 : s6 = lower_stmts s5 t)
    (hs7 : s7 = br_op s6 mb.1)
    (hs8 : s8 = set_insert_point s7 mb.1)
    (hLe : low_post s2 s3) (hLt : low_post s5 s6) :
    low_post cs2 s8 := by
  have hlen_tb : tb.2.fn.blocks.length = cs2.fn.blocks.length + 1 := by
    rw [htb]; exact create_block_len _ _
  have hlen_mb : mb.2.fn.blocks.length = cs2.fn.blocks.length + 2 := by
    rw [hmb, create_block_len, hlen_tb]
  have hlen_eb : eb.2.fn.blocks.length = cs2.fn.blocks.length + 3 := by
    rw [heb, create_block_len, hlen_mb]
  have hlen_s2 : s2.fn.blocks.length = cs2.fn.blocks.length + 3 := by
    rw [hs2, hs1, set_insert_fn, cond_br_op, emit_blocks_length, hlen_eb]
  have hlen_s3 : s2.fn.blocks.length ≤ s3.fn.blocks.length := hLe.2
  have hlen_s5 : s5.fn.blocks.length = s3.fn.blocks.length := by
    rw [hs5, hs4, set_insert_fn, br_op, emit_blocks_length]
  have hlen_s6 : s5.fn.blocks.length ≤ s6.fn.blocks.length := hLt.2
  have hlen_s8 : s8.fn.blocks.length = s6.fn.blocks.length := by
    rw [hs8, hs7, set_insert_fn, br_op, emit_blocks_length]
  constructor
  · intro hinv
    have htb1 : tb.1 = cs2.fn.blocks.length := by
      rw [htb]; exact create_block_handle hinv.2.1 _
    have hinv_tb : sealed_inv tb.2 := by
      rw [htb]; exact create_block_inv hinv _
    have hmb1 : mb.1 = cs2.fn.blocks.length + 1 := by
      rw [hmb, create_block_handle hinv_tb.2.1, hlen_tb]
    have hinv_mb : sealed_inv mb.2 := by
      rw [hmb]; exact create_block_inv hinv_tb _
    have heb1 : eb.1 = cs2.fn.blocks.length + 2 := by
      rw [heb, create_block_handle hinv_mb.2.1, hlen_mb]
    have hinv_eb : sealed_inv eb.2 := by
      rw [heb]; exact create_block_inv hinv_mb _
    have hinv_s2 : sealed_inv s2 := by
      rw [hs2, hs1, cond_br_op]
      exact seal_move_inv hinv_eb _ (Or.inr rfl) eb.1
        (by rw [heb1, hlen_eb]; omega)
    have hinv_s3 : sealed_inv s3 := hLe.1 hinv_s2
    have hinv_s5 : sealed_inv s5 := by
      rw [hs5, hs4, br_op]
      exact seal_move_inv hinv_s3 _ (Or.inl rfl) tb.1 (by omega)
    have hinv_s6 : sealed_inv s6 := hLt.1 hinv_s5
    rw [hs8, hs7, br_op]
    exact seal_move_inv hinv_s6 _ (Or.inl rfl) mb.1 (by omega)
  · omega

/-- Invariant/growth for the `lower_while` chain. -/
theorem while_chain (s0 : LowState) (cond : Option Expr) (b : List Stmt)
    (cb bb eb : Nat × LowState) (s1 s2 : LowState) (cs : Value × LowState)
    (s3 s4 s5 s6 s7 : LowState)
    (hcb : cb = create_block s0 "while.cond")
    (hbb : bb = create_block cb.2 "while.body")
    (heb : eb = create_block bb.2 "while.end")
    (hs1 : s1 = br_op eb.2 cb.1)
    (hs2 : s2 = set_insert_point s1 cb.1)
    (hcs : cs = lower_expr_opt s2 cond)
    (hs3 : s3 = cond_br_op cs.2 cs.1 bb.1 eb.1)
    (hs4 : s4 = set_insert_point s3 bb.1)
    (hs5 : s5 = lower_stmts s4 b)
    (hs6 : s6 = br_op s5 cb.1)
    (hs7 : s7 = set_insert_point s6 eb.1)
    (hLb : low_post s4 s5) :
    low_post s0 s7 := by
  have hsh_cs : expr_shape s2 cs.2 := by
    rw [hcs]; exact lower_expr_opt_shape cond s2
  have hlen_cb : cb.2.fn.blocks.length = s0.fn.blocks.length + 1 := by
    rw [hcb]; exact create_block_len _ _
  have hlen_bb : bb.2.fn.blocks.length = s0.fn.blocks.length + 2 := by
    rw [hbb, create_block_len, hlen_cb]
  have hlen_eb : eb.2.fn.blocks.length = s0.fn.blocks.length + 3 := by
    rw [heb, create_block_len, hlen_bb]
  have hlen_s2 : s2.fn.blocks.length = s0.fn.blocks.length + 3 := by
    rw [hs2, hs1, set_insert_fn, br_op, emit_blocks_length, hlen_eb]
  have hlen_cs : cs.2.fn.blocks.length = s0.fn.blocks.length + 3 := by
    rw [hsh_cs.2.1, hlen_s2]
  have hlen_s4 : s4.fn.blocks.length = s0.fn.blocks.length + 3 := by
    rw [hs4, hs3, set_insert_fn, cond_br_op, emit_blocks_length, hlen_cs]
  have hlen_s5 : s4.fn.blocks.length ≤ s5.fn.blocks.length := hLb.2
  have hlen_s7 : s7.fn.blocks.length = s5.fn.blocks.length := by
    rw [hs7, hs6, set_insert_fn, br_op, emit_blocks_length]
  constructor
  · intro hinv
    have hcb1 : cb.1 = s0.fn.blocks.length := by
      rw [hcb]; exact create_block_handle hinv.2.1 _
    have hinv_cb : sealed_inv cb.2 := by
      rw [hcb]; exact create_block_inv hinv _
    have hbb1 : bb.1 = s0.fn.blocks.length + 1 := by
      rw [hbb, create_block_handle hinv_cb.2.1, hlen_cb]
    have hinv_bb : sealed_inv bb.2 := by
      rw [hbb]; exact create_block_inv hinv_cb _
    have heb1 : eb.1 = s0.fn.blocks.length + 2 := by
      rw [heb, create_block_handle hinv_bb.2.1, hlen_bb]
    have hinv_eb : sealed_inv eb.2 := by
      rw [heb]; exact create_block_inv hinv_bb _
    have hinv_s2 : sealed_inv s2 := by
      rw [hs2, hs1, br_op]
      exact seal_move_inv hinv_eb _ (Or.inl rfl) cb.1
        (by rw [hcb1, hlen_eb]; omega)
    have hinv_cs : sealed_inv cs.2 := shape_inv hsh_cs hinv_s2
    have hinv_s4 : sealed_inv s4 := by
      rw [hs4, hs3, cond_br_op]
      exact seal_move_inv hinv_cs _ (Or.inr rfl) bb.1
        (by rw [hbb1, hlen_cs]; omega)
    have hinv_s5 : sealed_inv s5 := hLb.1 hinv_s4
    rw [hs7, hs6, br_op]
    refine seal_move_inv hinv_s5 _ ?_ eb.1 (by omega)
    exact Or.inl rfl
  · omega

mutual

/-- Statement lowering preserves the sealing invariant and never removes
    blocks. -/
theorem lower_stmt_post : (st : Stmt) → (s : LowState) →
    low_post s (lower_stmt s st)
  | Stmt.letStmt name ta init sp, s => by
    rw [lower_stmt.eq_def]
    dsimp only []
    match init with
    | some e =>
      have hsh := lower_expr_shape e s
      exact ⟨fun hinv => shape_inv hsh hinv, le_of_eq hsh.2.1.symm⟩
    | none => exact low_post_refl s
  | Stmt.returnStmt value sp, s => by
    rw [lower_stmt.eq_def]
    dsimp only []
    match value with
    | some e =>
      exact low_post_trans (shape_low_post (lower_expr_shape e s))
        (emit_low_post _ _)
    | none => exact emit_low_post _ _
  | Stmt.exprStmt expr sp, s => by
    rw [lower_stmt.eq_def]
    dsimp only []
    match expr with
    | some e => exact shape_low_post (lower_expr_shape e s)
    | none => exact low_post_refl s
  | Stmt.ifStmt cond t els sp, s => by
    have hc := shape_low_post (lower_expr_opt_shape cond s)
    rw [lower_stmt.eq_def]
    dsimp only []
    by_cases hel : els.isEmpty
    · simp only [hel, if_true]
      refine low_post_trans hc ?_
      exact if_chain_no_else _ _ t _ _ _ _ _ _ _ rfl rfl rfl rfl rfl rfl rfl
        (lower_stmts_post t _)
    · simp only [hel, if_false]
      refine low_post_trans hc ?_
      exact if_chain_else _ _ t els _ _ _ _ _ _ _ _ _ _ _ rfl rfl rfl rfl
        rfl rfl rfl rfl rfl rfl rfl (lower_stmts_post els _)
        (lower_stmts_post t _)
  | Stmt.whileStmt cond b sp, s => by
    rw [lower_stmt.eq_def]
    dsimp only []
    exact while_chain s cond b _ _ _ _ _ _ _ _ _ _ _ rfl rfl rfl rfl rfl
      rfl rfl rfl rfl rfl rfl (lower_stmts_post b _)
  | Stmt.blockStmt stmts sp, s => by
    rw [lower_stmt.eq_def]
    dsimp only []
    exact lower_stmts_post stmts s

theorem lower_stmts_post : (l : List Stmt) → (s : LowState) →
    low_post s (lower_stmts s l)
  | [], s => low_post_refl s
  | st :: rest, s =>
    low_post_trans (lower_stmt_post st s)
      (lower_stmts_post rest (lower_stmt s st))

end

/-- Terminator discipline for one lowered function: every non-empty block
    ends in `ret`, `br` or `cond_br`. -/
def fn_terminated (fn : Function) : Prop :=
  ∀ bb ∈ fn.blocks, ∀ instr, bb.instrs.getLast? = some instr →
    is_terminator instr.op = true

theorem entry_init_inv (fn0 : Function) (hb : fn0.blocks = [])
    (hn : fn0.next_block_id = 0) :
    sealed_inv { fn := fn0.entry.2, insert := fn0.entry.1, symbols := [] } := by
  have hentry : fn0.entry = fn0.new_block "entry" := by
    rw [Function.entry, hb]
    simp
  refine ⟨?_, ?_, ?_⟩
  · rw [hentry]
    simp [Function.new_block, hb, hn]
  · rw [hentry]
    simp [Function.new_block, hb, hn]
  · intro j instr hj hlast
    rw [hentry] at hj hlast
    simp only [Function.new_block, hb, hn] at hj hlast
    have hempty : (([] ++
        [{ id := 0, label := if "entry" = "" then "bb" ++ toString 0
             else "entry" }] : List BasicBlock).getD j default).instrs = [] := by
      cases j with
      | zero => exact absurd rfl hj
      | succ j =>
        rw [List.getD_eq_default]
        · rfl
        · simp
    rw [hempty] at hlast
    simp at hlast

theorem params_fold_inv (ps : List Param) (s : LowState)
    (hinv : sealed_inv s) :
    sealed_inv (ps.foldl (fun s p =>
      let vs := low_new_value s (ast_to_type p.type.kind)
      { vs.2 with symbols := (p.name, vs.1) :: vs.2.symbols }) s) := by
  induction ps generalizing s with
  | nil => exact hinv
  | cons p rest ih =>
    exact ih _ (shape_inv (⟨rfl, rfl, rfl, fun _ _ => rfl⟩ :
      expr_shape s _) hinv)

/-- The end-of-function fix-up of `Lowering::lower_function` restores full
    terminator discipline: when a bare `ret` is appended it lands in the
    insertion block, and when it is not appended the last block already ends
    in `ret` — and by the sealing invariant that block must be the insertion
    block, every other non-empty block ending in a branch. -/
theorem fixup_terminated (s2 : LowState) (hinv : sealed_inv s2) :
    fn_terminated (if s2.fn.blocks.isEmpty ∨
        (s2.fn.blocks.getLast?.getD default).instrs.isEmpty ∨
        ((s2.fn.blocks.getLast?.getD default).instrs.getLast?.getD
          default).op ≠ OpCode.RET
      then ret_bare s2 else s2).fn := by
  obtain ⟨h1, h2, h3⟩ := hinv
  have hlen_pos : 0 < s2.fn.blocks.length := by omega
  have hlast_idx : s2.fn.blocks.getLast?.getD default =
      s2.fn.blocks.getD (s2.fn.blocks.length - 1) default := by
    rw [List.getD_eq_getElem?_getD, List.getLast?_eq_getElem?]
  split
  · intro bb hbb instr hlast
    rw [List.mem_iff_getElem] at hbb
    obtain ⟨j, hj, hbbj⟩ := hbb
    have hjlen : j < s2.fn.blocks.length := by
      have hh : (ret_bare s2).fn.blocks.length = s2.fn.blocks.length := by
        rw [ret_bare]; exact emit_blocks_length _ _
      omega
    have hget : (ret_bare s2).fn.blocks.getD j default = bb := by
      rw [List.getD_eq_getElem?_getD, List.getElem?_eq_getElem hj, hbbj]
      rfl
    by_cases hji : j = s2.insert
    · subst hji
      have hmod : (ret_bare s2).fn.blocks.getD s2.insert default =
          (s2.fn.blocks.getD s2.insert default).add { op := OpCode.RET } := by
        simp only [ret_bare, emit]
        exact getD_modify_at_eq _ _ _ _ h1
      rw [hmod] at hget
      rw [← hget] at hlast
      simp only [BasicBlock.add, List.getLast?_concat, Option.some.injEq]
        at hlast
      rw [← hlast]
      rfl
    · have hmod : (ret_bare s2).fn.blocks.getD j default =
          s2.fn.blocks.getD j default := by
        simp only [ret_bare, emit]
        exact getD_modify_at_ne _ _ _ _ _ hji
      rw [hmod] at hget
      rw [← hget] at hlast
      rcases h3 j instr hji hlast with h | h <;> rw [h] <;> rfl
  · rename_i hc
    push_neg at hc
    obtain ⟨hc1, hc2, hc3⟩ := hc
    intro bb hbb instr hlast
    rw [List.mem_iff_getElem] at hbb
    obtain ⟨j, hj, hbbj⟩ := hbb
    have hget : s2.fn.blocks.getD j default = bb := by
      rw [List.getD_eq_getElem?_getD, List.getElem?_eq_getElem hj, hbbj]
      rfl
    by_cases hji : j = s2.insert
    · subst hji
      by_cases hins_last : s2.insert = s2.fn.blocks.length - 1
      · have hbb_last : s2.fn.blocks.getLast?.getD default = bb := by
          rw [hlast_idx, ← hins_last, hget]
        have : instr.op = OpCode.RET := by
          have hx := hc3
          rw [hbb_last] at hx
          rw [hlast] at hx
          simpa using hx
        rw [this]
        rfl
      · exfalso
        have hlb_ne : ¬ (s2.fn.blocks.getLast?.getD default).instrs.isEmpty
            = true := hc2
        rw [List.isEmpty_iff] at hlb_ne
        obtain ⟨L, hL⟩ : ∃ L,
            (s2.fn.blocks.getLast?.getD default).instrs.getLast? = some L := by
          cases hh : (s2.fn.blocks.getLast?.getD default).instrs.getLast? with
          | some L => exact ⟨L, rfl⟩
          | none =>
            rw [List.getLast?_eq_none_iff] at hh
            exact absurd hh hlb_ne
        have hRET : L.op = OpCode.RET := by
          have hx := hc3
          rw [hL] at hx
          simpa using hx
        have hbr := h3 (s2.fn.blocks.length - 1) L (by omega)
          (by rw [← hlast_idx]; exact hL)
        rcases hbr with h | h <;> rw [hRET] at h <;> exact OpCode.noConfusion h
    · rw [← hget] at hlast
      rcases h3 j instr hji hlast with h | h <;> rw [h] <;> rfl

theorem lower_function_preserves (mod : Module) (fn_ast : FnDecl)
    (h : ∀ fn ∈ mod.functions, fn_terminated fn) :
    ∀ fn ∈ (lower_function mod fn_ast).functions, fn_terminated fn := by
  intro fn hfn
  rw [lower_function] at hfn
  dsimp only [] at hfn
  rw [List.mem_append] at hfn
  rcases hfn with hfn | hfn
  · exact h fn hfn
  · simp only [List.mem_singleton] at hfn
    subst hfn
    apply fixup_terminated
    apply (lower_stmts_post fn_ast.body _).1
    apply params_fold_inv
    exact entry_init_inv _ rfl rfl

/-- C5.  *Terminator discipline* (spec §8): in the module produced by
    lowering any AST program, every non-empty basic block of every function
    ends in a terminator (`ret`, `br` or `cond_br`); in particular the
    end-of-function fix-up appends a bare `ret` whenever the last block's
    trailing instruction is not a `ret`. -/
theorem spec_c5_lowering_terminator_discipline (prog : Program) :
    ∀ fn ∈ (lower prog).functions, ∀ bb ∈ fn.blocks,
      ∀ instr, bb.instrs.getLast? = some instr →
        is_terminator instr.op = true := by
  have hfold : ∀ (fns : List FnDecl) (mod : Module),
      (∀ fn ∈ mod.functions, fn_terminated fn) →
      ∀ fn ∈ (fns.foldl lower_function mod).functions, fn_terminated fn := by
    intro fns
    induction fns with
    | nil => intro mod h; exact h
    | cons f rest ih =>
      intro mod h
      exact ih _ (lower_function_preserves mod f h)
  intro fn hfn
  exact hfold prog.functions { functions := [] }
    (by intro fn h; simp at h) fn hfn

/-- A one-function program whose body is empty: lowering appends the bare
    `ret` to the entry block. -/
def c5_prog : Program := { functions := [{ name := "main" }] }

/-- The function lowered from `c5_prog`. -/
def c5_fn : Function :=
  { name := "main", param_types := [], return_type := Ty.make_void,
    blocks := [{ id := 0, label := "entry",
                 instrs := [{ op := OpCode.RET }] }],
    next_value_id := 1, next_block_id := 1 }

/-- Concrete instance of C5: the single block of the lowered `c5_prog` ends
    in the appended bare `ret`. -/
theorem spec_c5_lowering_terminator_discipline_witness :
    is_terminator ({ op := OpCode.RET : Instruction }).op = true :=
  spec_c5_lowering_terminator_discipline c5_prog c5_fn (List.Mem.head _)
    { id := 0, label := "entry", instrs := [{ op := OpCode.RET }] }
    (List.Mem.head _) { op := OpCode.RET } rfl

end Zero
